import Mathlib

/-!
Verification development for the Blockforge voxel-world core.

The Python sources (`src/voxel/*.py`) are shallowly embedded:
* Python `int` becomes `ℤ` (or `ℕ` for block ids and list indices),
* Python `float` becomes `ℚ` (exact rational arithmetic; the float
  constant `3.0 ** 0.5` is modelled by the rational constant `SQRT3`),
* the mutable `World.chunks` dict becomes a function `ℤ × ℤ → Option Chunk`,
  and mutating methods return the new `World`,
* Python `floor(a / b)` on ints is `a / b` on `ℤ` (Lean's `Int` division
  rounds toward negative infinity for a positive divisor),
* Python `int(x)` on floats (truncation toward zero) is `pyInt`.
-/

namespace Blockforge

/-! ### settings.py -/

def CHUNK_SIZE_X : ℤ := 8
def CHUNK_SIZE_Y : ℤ := 128
def CHUNK_SIZE_Z : ℤ := 8

def BASE_HEIGHT : ℚ := 18
def HILL_AMPLITUDE : ℚ := 8
def HILL_FREQ_X : ℚ := 0.02
def HILL_FREQ_Z : ℚ := 0.02

def SEMI_FLAT_LARGE_FREQ : ℚ := 0.005
def SEMI_FLAT_MEDIUM_FREQ : ℚ := 0.015
def SEMI_FLAT_SMALL_FREQ : ℚ := 0.04
def SEMI_FLAT_THRESHOLD : ℚ := 0.2
def SEMI_FLAT_FACTOR : ℚ := 0.23

def SMALL_MOUNTAIN_FREQ : ℚ := 0.015
def SMALL_MOUNTAIN_AMP : ℚ := 15
def BIG_MOUNTAIN_FREQ : ℚ := 0.005
def BIG_MOUNTAIN_AMP : ℚ := 40

def OCTAVE_COUNT : ℕ := 2
def OCTAVE_PERSISTENCE : ℚ := 0.5
def OCTAVE_LACUNARITY : ℚ := 2.0

def PLAYER_WIDTH : ℚ := 0.6
def PLAYER_DEPTH : ℚ := 0.6
def PLAYER_HEIGHT : ℚ := 1.8

def MOVE_SPEED : ℚ := 6.0
def ACCEL_GROUND : ℚ := 40.0
def AIR_CONTROL : ℚ := 0.25
def ACCEL_AIR : ℚ := ACCEL_GROUND * AIR_CONTROL
def FRICTION : ℚ := 20.0
def GRAVITY : ℚ := 26.0
def JUMP_SPEED : ℚ := 8.5

def EPSILON : ℚ := 0.001

/-! ### Small helpers -/

/-- Python `range(a, b)` over integers, as a list. -/
def intRange (a b : ℤ) : List ℤ :=
  (List.range (b - a).toNat).map (fun i : ℕ => a + (i : ℤ))

/-- Python `int(x)` applied to a float: truncation toward zero. -/
def pyInt (q : ℚ) : ℤ := if 0 ≤ q then ⌊q⌋ else ⌈q⌉

/-! ### chunk.py: block ids and the `Chunk` data -/

def BLOCK_AIR : ℕ := 0
def BLOCK_GRASS : ℕ := 1
def BLOCK_DIRT : ℕ := 2
def BLOCK_STONE : ℕ := 3
def BLOCK_BEDROCK : ℕ := 4

def is_block_solid (block_id : ℕ) : Bool := block_id != BLOCK_AIR

/-- util.py `index_3d`: packed index for local coords in a chunk. -/
def index_3d (lx y lz : ℤ) : ℤ :=
  (y * CHUNK_SIZE_Z + lz) * CHUNK_SIZE_X + lx

/-- chunk.py `Chunk`: block grid plus the dirty flag.  The Panda3D
`node` field (a renderer handle) is outside the model. -/
structure Chunk where
  cx : ℤ
  cz : ℤ
  blocks : List ℕ
  dirty : Bool

/-- chunk.py `Chunk.__init__`: fresh all-air grid, dirty. -/
def Chunk.init (cx cz : ℤ) : Chunk :=
  { cx := cx, cz := cz,
    blocks := List.replicate (CHUNK_SIZE_X * CHUNK_SIZE_Y * CHUNK_SIZE_Z).toNat BLOCK_AIR,
    dirty := true }

/-- chunk.py `Chunk.set_block_local`.  (Out-of-range writes are ignored,
as in the source; `List.set` is also a no-op past the end of the list,
which matches Python only when the grid has its full length — the claims
below never rely on that corner.) -/
def Chunk.set_block_local (c : Chunk) (lx y lz : ℤ) (block_id : ℕ) : Chunk :=
  if 0 ≤ lx ∧ lx < CHUNK_SIZE_X ∧ 0 ≤ y ∧ y < CHUNK_SIZE_Y ∧ 0 ≤ lz ∧ lz < CHUNK_SIZE_Z then
    { c with blocks := c.blocks.set (index_3d lx y lz).toNat block_id, dirty := true }
  else c

/-- chunk.py `Chunk.get_block_local`.  (`getD` with default air stands in
for Python list indexing; the index is in range whenever the grid has its
full `SX*SY*SZ` length.) -/
def Chunk.get_block_local (c : Chunk) (lx y lz : ℤ) : ℕ :=
  if 0 ≤ lx ∧ lx < CHUNK_SIZE_X ∧ 0 ≤ y ∧ y < CHUNK_SIZE_Y ∧ 0 ≤ lz ∧ lz < CHUNK_SIZE_Z then
    c.blocks.getD (index_3d lx y lz).toNat BLOCK_AIR
  else BLOCK_AIR

/-! ### world.py: the `World` state -/

/-- world.py `World`, restricted to the state the block API touches.
`chunks` is the loaded-chunk dictionary.  `generate` models
`_populate_chunk_blocks` followed by `_apply_saved_modifications` on a
fresh `Chunk.init cx cz` — the full terrain/noise/save pipeline that
`_ensure_chunk` runs for an absent key; its output is arbitrary here
because no claim below depends on the generated contents. -/
structure World where
  chunks : ℤ × ℤ → Option Chunk
  generate : ℤ → ℤ → Chunk

/-- Replace the entry of `chunks` at `key` (dict assignment). -/
def World.putChunk (w : World) (key : ℤ × ℤ) (c : Chunk) : World :=
  { w with chunks := fun k => if k = key then some c else w.chunks k }

/-- world.py `World.is_solid`. -/
def World.is_solid (w : World) (wx wy wz : ℤ) : Bool :=
  if wy < 0 then true
  else if CHUNK_SIZE_Y ≤ wy then false
  else
    let cx := wx / CHUNK_SIZE_X
    let cz := wz / CHUNK_SIZE_Z
    match w.chunks (cx, cz) with
    | some chunk =>
        is_block_solid (chunk.get_block_local (wx - cx * CHUNK_SIZE_X) wy (wz - cz * CHUNK_SIZE_Z))
    | none => false

/-- world.py `World.solid_at` (public alias of `is_solid`). -/
def World.solid_at (w : World) (wx wy wz : ℤ) : Bool := w.is_solid wx wy wz

/-- world.py `World._ensure_chunk`: returns the (possibly new) world and
the chunk at `(cx, cz)`. -/
def World.ensure_chunk (w : World) (cx cz : ℤ) : World × Chunk :=
  match w.chunks (cx, cz) with
  | some ch => (w, ch)
  | none =>
      let ch := w.generate cx cz
      (w.putChunk (cx, cz) ch, ch)

/-- The repeated pattern `neighbor = self.chunks.get(key); if neighbor:
neighbor.dirty = True` inside `_mark_neighbors_dirty`. -/
def World.dirtyNeighbor (w : World) (key : ℤ × ℤ) : World :=
  match w.chunks key with
  | some nb => w.putChunk key { nb with dirty := true }
  | none => w

/-- world.py `World._mark_neighbors_dirty`. -/
def World.mark_neighbors_dirty (w : World) (wx wz cx cz : ℤ) : World :=
  let lx := wx - cx * CHUNK_SIZE_X
  let lz := wz - cz * CHUNK_SIZE_Z
  let w1 :=
    if lx = 0 then w.dirtyNeighbor (cx - 1, cz)
    else if lx = CHUNK_SIZE_X - 1 then w.dirtyNeighbor (cx + 1, cz)
    else w
  if lz = 0 then w1.dirtyNeighbor (cx, cz - 1)
  else if lz = CHUNK_SIZE_Z - 1 then w1.dirtyNeighbor (cx, cz + 1)
  else w1

/-- world.py `World.remove_block`: returns `(success, new world)`. -/
def World.remove_block (w : World) (wx wy wz : ℤ) : Bool × World :=
  if wy ≤ 0 ∨ CHUNK_SIZE_Y ≤ wy then (false, w)
  else
    let cx := wx / CHUNK_SIZE_X
    let cz := wz / CHUNK_SIZE_Z
    match w.chunks (cx, cz) with
    | none => (false, w)
    | some chunk =>
        let lx := wx - cx * CHUNK_SIZE_X
        let lz := wz - cz * CHUNK_SIZE_Z
        if chunk.get_block_local lx wy lz = BLOCK_AIR then (false, w)
        else
          let w1 := w.putChunk (cx, cz) (chunk.set_block_local lx wy lz BLOCK_AIR)
          (true, w1.mark_neighbors_dirty wx wz cx cz)

/-- world.py `World.place_block`: returns `(success, new world)`. -/
def World.place_block (w : World) (wx wy wz : ℤ) (block_type : ℕ) : Bool × World :=
  if wy ≤ 0 ∨ CHUNK_SIZE_Y ≤ wy then (false, w)
  else
    let cx := wx / CHUNK_SIZE_X
    let cz := wz / CHUNK_SIZE_Z
    let (w1, chunk) := w.ensure_chunk cx cz
    let lx := wx - cx * CHUNK_SIZE_X
    let lz := wz - cz * CHUNK_SIZE_Z
    if chunk.get_block_local lx wy lz ≠ BLOCK_AIR then (false, w1)
    else
      let w2 := w1.putChunk (cx, cz) (chunk.set_block_local lx wy lz block_type)
      (true, w2.mark_neighbors_dirty wx wz cx cz)

/-- world.py `World._apply_saved_modifications`, as a function of the
save system's `load_chunk` result.  `none` covers both "no saved file"
and "an exception was raised" (the `except` path leaves the chunk
untouched); `some saved_blocks` replaces the whole grid unchecked. -/
def apply_saved_modifications (c : Chunk) (saved_blocks : Option (List ℕ)) : Chunk :=
  match saved_blocks with
  | none => c
  | some blocks => { c with blocks := blocks, dirty := true }


/-! ### util.py: AABB helpers -/

/-- util.py `AABB`: axis-aligned box given by min/max per axis. -/
structure AABB where
  min_x : ℚ
  min_y : ℚ
  min_z : ℚ
  max_x : ℚ
  max_y : ℚ
  max_z : ℚ

/-- util.py `AABB.intersects`. -/
def AABB.intersects (a other : AABB) : Bool :=
  !(decide (a.max_x ≤ other.min_x) || decide (a.min_x ≥ other.max_x) ||
    decide (a.max_y ≤ other.min_y) || decide (a.min_y ≥ other.max_y) ||
    decide (a.max_z ≤ other.min_z) || decide (a.min_z ≥ other.max_z))

/-- util.py `AABB.moved`. -/
def AABB.moved (a : AABB) (dx dy dz : ℚ) : AABB :=
  ⟨a.min_x + dx, a.min_y + dy, a.min_z + dz, a.max_x + dx, a.max_y + dy, a.max_z + dz⟩

/-- util.py `block_aabb`: the unit cube at integer coords. -/
def block_aabb (bx bY bz : ℤ) : AABB :=
  ⟨(bx : ℚ), (bY : ℚ), (bz : ℚ), (bx : ℚ) + 1, (bY : ℚ) + 1, (bz : ℚ) + 1⟩

/-! ### player.py `Player._sweep_axis` -/

/-- The axis argument of `_sweep_axis` (the strings "x", "y", "z"). -/
inductive Axis where
  | x
  | y
  | z
deriving DecidableEq

/-- The triple-nested `for bx / for by / for bz` candidate enumeration
`range(smx, sMx + 1) x range(smy, sMy + 1) x range(smz, sMz + 1)`. -/
def sweepCands (smx sMx smy sMy smz sMz : ℤ) : List (ℤ × ℤ × ℤ) :=
  (intRange smx (sMx + 1)).flatMap fun bx =>
    (intRange smy (sMy + 1)).flatMap fun bY =>
      (intRange smz (sMz + 1)).map fun bz => (bx, bY, bz)

/-- One iteration of the x-axis sweep loop body. -/
def sweepStepX (solid : ℤ → ℤ → ℤ → Bool) (aabb : AABB) (delta : ℚ)
    (s : ℚ × Bool) (c : ℤ × ℤ × ℤ) : ℚ × Bool :=
  if solid c.1 c.2.1 c.2.2 then
    let blk := block_aabb c.1 c.2.1 c.2.2
    if aabb.max_y ≤ blk.min_y ∨ aabb.min_y ≥ blk.max_y then s
    else if aabb.max_z ≤ blk.min_z ∨ aabb.min_z ≥ blk.max_z then s
    else if 0 < delta then
      if aabb.max_x ≤ blk.min_x ∧ blk.min_x < aabb.max_x + delta then
        (min s.1 (blk.min_x - aabb.max_x - EPSILON), true)
      else s
    else
      if blk.max_x ≤ aabb.min_x ∧ aabb.min_x + delta < blk.max_x then
        (max s.1 (blk.max_x - aabb.min_x + EPSILON), true)
      else s
  else s

/-- One iteration of the y-axis sweep loop body. -/
def sweepStepY (solid : ℤ → ℤ → ℤ → Bool) (aabb : AABB) (delta : ℚ)
    (s : ℚ × Bool) (c : ℤ × ℤ × ℤ) : ℚ × Bool :=
  if solid c.1 c.2.1 c.2.2 then
    let blk := block_aabb c.1 c.2.1 c.2.2
    if aabb.max_x ≤ blk.min_x ∨ aabb.min_x ≥ blk.max_x then s
    else if aabb.max_z ≤ blk.min_z ∨ aabb.min_z ≥ blk.max_z then s
    else if 0 < delta then
      if aabb.max_y ≤ blk.min_y ∧ blk.min_y < aabb.max_y + delta then
        (min s.1 (blk.min_y - aabb.max_y - EPSILON), true)
      else s
    else
      if blk.max_y ≤ aabb.min_y ∧ aabb.min_y + delta < blk.max_y then
        (max s.1 (blk.max_y - aabb.min_y + EPSILON), true)
      else s
  else s

/-- One iteration of the z-axis sweep loop body. -/
def sweepStepZ (solid : ℤ → ℤ → ℤ → Bool) (aabb : AABB) (delta : ℚ)
    (s : ℚ × Bool) (c : ℤ × ℤ × ℤ) : ℚ × Bool :=
  if solid c.1 c.2.1 c.2.2 then
    let blk := block_aabb c.1 c.2.1 c.2.2
    if aabb.max_x ≤ blk.min_x ∨ aabb.min_x ≥ blk.max_x then s
    else if aabb.max_y ≤ blk.min_y ∨ aabb.min_y ≥ blk.max_y then s
    else if 0 < delta then
      if aabb.max_z ≤ blk.min_z ∧ blk.min_z < aabb.max_z + delta then
        (min s.1 (blk.min_z - aabb.max_z - EPSILON), true)
      else s
    else
      if blk.max_z ≤ aabb.min_z ∧ aabb.min_z + delta < blk.max_z then
        (max s.1 (blk.max_z - aabb.min_z + EPSILON), true)
      else s
  else s

/-- player.py `Player._sweep_axis`: sweep `aabb` by `delta` along one
axis against the solid-block grid `solid` (models `self.world.solid_at`);
returns `(allowed_delta, hit)`. -/
def sweep_axis (solid : ℤ → ℤ → ℤ → Bool) (aabb : AABB) (delta : ℚ) (axis : Axis) :
    ℚ × Bool :=
  if delta = 0 then (0, false)
  else
    match axis with
    | .x =>
        let smx := if 0 < delta then ⌊aabb.min_x⌋ else ⌊aabb.min_x + delta⌋
        let sMx := if 0 < delta then ⌊aabb.max_x + delta⌋ + 1 else ⌊aabb.max_x⌋ + 1
        (sweepCands smx sMx ⌊aabb.min_y⌋ (⌊aabb.max_y⌋ + 1) ⌊aabb.min_z⌋ (⌊aabb.max_z⌋ + 1)).foldl
          (sweepStepX solid aabb delta) (delta, false)
    | .y =>
        let smy := if 0 < delta then ⌊aabb.min_y⌋ else ⌊aabb.min_y + delta⌋
        let sMy := if 0 < delta then ⌊aabb.max_y + delta⌋ + 1 else ⌊aabb.max_y⌋ + 1
        (sweepCands ⌊aabb.min_x⌋ (⌊aabb.max_x⌋ + 1) smy sMy ⌊aabb.min_z⌋ (⌊aabb.max_z⌋ + 1)).foldl
          (sweepStepY solid aabb delta) (delta, false)
    | .z =>
        let smz := if 0 < delta then ⌊aabb.min_z⌋ else ⌊aabb.min_z + delta⌋
        let sMz := if 0 < delta then ⌊aabb.max_z + delta⌋ + 1 else ⌊aabb.max_z⌋ + 1
        (sweepCands ⌊aabb.min_x⌋ (⌊aabb.max_x⌋ + 1) ⌊aabb.min_y⌋ (⌊aabb.max_y⌋ + 1) smz sMz).foldl
          (sweepStepZ solid aabb delta) (delta, false)

/-- The caller (`Player.update` and its analogues) applies the allowed
delta along the swept axis only. -/
def AABB.movedAxis (a : AABB) (d : ℚ) : Axis → AABB
  | .x => a.moved d 0 0
  | .y => a.moved 0 d 0
  | .z => a.moved 0 0 d

/-- "Block `(bx, bY, bz)` blocked the sweep": it is one of the candidates
the loop visits, is solid, overlaps the AABB on the two other axes, and
the requested delta would cross its near face (the exact conditions under
which `_sweep_axis` clamps `allowed` against this block). -/
def blocksSweep (solid : ℤ → ℤ → ℤ → Bool) (aabb : AABB) (delta : ℚ) (axis : Axis)
    (bx bY bz : ℤ) : Prop :=
  let blk := block_aabb bx bY bz
  solid bx bY bz = true ∧
  match axis with
  | .x =>
      (if 0 < delta then ⌊aabb.min_x⌋ else ⌊aabb.min_x + delta⌋) ≤ bx ∧
      bx ≤ (if 0 < delta then ⌊aabb.max_x + delta⌋ + 1 else ⌊aabb.max_x⌋ + 1) ∧
      ⌊aabb.min_y⌋ ≤ bY ∧ bY ≤ ⌊aabb.max_y⌋ + 1 ∧
      ⌊aabb.min_z⌋ ≤ bz ∧ bz ≤ ⌊aabb.max_z⌋ + 1 ∧
      ¬ (aabb.max_y ≤ blk.min_y ∨ aabb.min_y ≥ blk.max_y) ∧
      ¬ (aabb.max_z ≤ blk.min_z ∨ aabb.min_z ≥ blk.max_z) ∧
      (if 0 < delta then aabb.max_x ≤ blk.min_x ∧ blk.min_x < aabb.max_x + delta
       else blk.max_x ≤ aabb.min_x ∧ aabb.min_x + delta < blk.max_x)
  | .y =>
      ⌊aabb.min_x⌋ ≤ bx ∧ bx ≤ ⌊aabb.max_x⌋ + 1 ∧
      (if 0 < delta then ⌊aabb.min_y⌋ else ⌊aabb.min_y + delta⌋) ≤ bY ∧
      bY ≤ (if 0 < delta then ⌊aabb.max_y + delta⌋ + 1 else ⌊aabb.max_y⌋ + 1) ∧
      ⌊aabb.min_z⌋ ≤ bz ∧ bz ≤ ⌊aabb.max_z⌋ + 1 ∧
      ¬ (aabb.max_x ≤ blk.min_x ∨ aabb.min_x ≥ blk.max_x) ∧
      ¬ (aabb.max_z ≤ blk.min_z ∨ aabb.min_z ≥ blk.max_z) ∧
      (if 0 < delta then aabb.max_y ≤ blk.min_y ∧ blk.min_y < aabb.max_y + delta
       else blk.max_y ≤ aabb.min_y ∧ aabb.min_y + delta < blk.max_y)
  | .z =>
      ⌊aabb.min_x⌋ ≤ bx ∧ bx ≤ ⌊aabb.max_x⌋ + 1 ∧
      ⌊aabb.min_y⌋ ≤ bY ∧ bY ≤ ⌊aabb.max_y⌋ + 1 ∧
      (if 0 < delta then ⌊aabb.min_z⌋ else ⌊aabb.min_z + delta⌋) ≤ bz ∧
      bz ≤ (if 0 < delta then ⌊aabb.max_z + delta⌋ + 1 else ⌊aabb.max_z⌋ + 1) ∧
      ¬ (aabb.max_x ≤ blk.min_x ∨ aabb.min_x ≥ blk.max_x) ∧
      ¬ (aabb.max_y ≤ blk.min_y ∨ aabb.min_y ≥ blk.max_y) ∧
      (if 0 < delta then aabb.max_z ≤ blk.min_z ∧ blk.min_z < aabb.max_z + delta
       else blk.max_z ≤ aabb.min_z ∧ aabb.min_z + delta < blk.max_z)


/-! ### util.py: simplex noise, terrain height, biome -/

/-- util.py `_GRAD3`. -/
def GRAD3 : List (ℤ × ℤ × ℤ) :=
  [(1, 1, 0), (-1, 1, 0), (1, -1, 0), (-1, -1, 0),
   (1, 0, 1), (-1, 0, 1), (1, 0, -1), (-1, 0, -1),
   (0, 1, 1), (0, -1, 1), (0, 1, -1), (0, -1, -1)]

/-- util.py `_dot2`. -/
def dot2 (g : ℤ × ℤ × ℤ) (x y : ℚ) : ℚ := (g.1 : ℚ) * x + (g.2.1 : ℚ) * y

/-- The Python float value of `3.0 ** 0.5`.  The real square root is
irrational; the embedding computes with the rational constant the float
code uses (17 significant digits of the IEEE double). -/
def SQRT3 : ℚ := 1.7320508075688772

/-- `_PERM[i]` (default 0 past the end; with a well-formed duplicated
256-entry table every index the noise code produces is in range). -/
def permAt (p : List ℕ) (i : ℕ) : ℕ := p.getD i 0

/-- util.py `_simplex_noise_2d`, as a pure function of the permutation
table `p` (the module global `_PERM`) and the input point.  Python's
`i & 255` on a possibly negative int equals `(i % 256).toNat` here. -/
def simplex_noise_2d (p : List ℕ) (x y : ℚ) : ℚ :=
  let F2 : ℚ := 0.5 * (SQRT3 - 1.0)
  let G2 : ℚ := (3.0 - SQRT3) / 6.0
  let s := (x + y) * F2
  let i : ℤ := if 0 < x + s then pyInt (x + s) else pyInt (x + s) - 1
  let j : ℤ := if 0 < y + s then pyInt (y + s) else pyInt (y + s) - 1
  let t : ℚ := ((i + j : ℤ) : ℚ) * G2
  let X0 : ℚ := (i : ℚ) - t
  let Y0 : ℚ := (j : ℚ) - t
  let x0 := x - X0
  let y0 := y - Y0
  let ij1 : ℕ × ℕ := if y0 < x0 then (1, 0) else (0, 1)
  let x1 := x0 - (ij1.1 : ℚ) + G2
  let y1 := y0 - (ij1.2 : ℚ) + G2
  let x2 := x0 - 1.0 + 2.0 * G2
  let y2 := y0 - 1.0 + 2.0 * G2
  let ii : ℕ := (i % 256).toNat
  let jj : ℕ := (j % 256).toNat
  let gi0 := permAt p (ii + permAt p jj) % 12
  let gi1 := permAt p (ii + ij1.1 + permAt p (jj + ij1.2)) % 12
  let gi2 := permAt p (ii + 1 + permAt p (jj + 1)) % 12
  let t0 := 0.5 - x0 * x0 - y0 * y0
  let n0 : ℚ := if t0 < 0 then 0.0
    else (t0 * t0) * (t0 * t0) * dot2 (GRAD3.getD gi0 (0, 0, 0)) x0 y0
  let t1 := 0.5 - x1 * x1 - y1 * y1
  let n1 : ℚ := if t1 < 0 then 0.0
    else (t1 * t1) * (t1 * t1) * dot2 (GRAD3.getD gi1 (0, 0, 0)) x1 y1
  let t2 := 0.5 - x2 * x2 - y2 * y2
  let n2 : ℚ := if t2 < 0 then 0.0
    else (t2 * t2) * (t2 * t2) * dot2 (GRAD3.getD gi2 (0, 0, 0)) x2 y2
  70.0 * (n0 + n1 + n2)

/-- The octave accumulation loop of `terrain_height`:
`(total, amplitude, frequency, max_value)` after `n` iterations. -/
def octaveLoop (p : List ℕ) (x z : ℚ) : ℕ → ℚ × ℚ × ℚ × ℚ → ℚ × ℚ × ℚ × ℚ
  | 0, acc => acc
  | n + 1, (total, amplitude, frequency, maxv) =>
      octaveLoop p x z n
        (total + simplex_noise_2d p (x * frequency) (z * frequency) * amplitude,
         amplitude * OCTAVE_PERSISTENCE,
         frequency * OCTAVE_LACUNARITY,
         maxv + amplitude)

/-- util.py `terrain_height`, as a pure function of the permutation
table `p`. -/
def terrain_height (p : List ℕ) (wx wz : ℤ) (biome : String := "plains")
    (desert_weight : ℚ := 0.0) : ℤ :=
  let x := (wx : ℚ) * HILL_FREQ_X
  let z := (wz : ℚ) * HILL_FREQ_Z
  let acc := octaveLoop p x z OCTAVE_COUNT (0.0, 1.0, 1.0, 0.0)
  let total := acc.1 / acc.2.2.2
  let plains_height := BASE_HEIGHT + HILL_AMPLITUDE * total
  let desert_base := BASE_HEIGHT * 0.98
  let desert_amplitude := HILL_AMPLITUDE * 0.92
  let desert_total := total * 0.95
  let desert_height := desert_base + desert_amplitude * desert_total
  let blended0 := plains_height * (1.0 - desert_weight) + desert_height * desert_weight
  let blended1 :=
    if biome = "jungle" then BASE_HEIGHT * 1.05 + HILL_AMPLITUDE * 1.5 * total
    else blended0
  let mountain_mask := simplex_noise_2d p ((wx : ℚ) * 0.004) ((wz : ℚ) * 0.004)
  let threshold : ℚ := 0.2
  let blended2 :=
    if threshold < mountain_mask then
      let mask_strength := (mountain_mask - threshold) / (1.0 - threshold)
      let small_m0 := simplex_noise_2d p ((wx : ℚ) * SMALL_MOUNTAIN_FREQ)
        ((wz : ℚ) * SMALL_MOUNTAIN_FREQ)
      let small_m := (small_m0 + 1.0) * 0.5 * SMALL_MOUNTAIN_AMP
      let big_m0 := simplex_noise_2d p ((wx : ℚ) * BIG_MOUNTAIN_FREQ)
        ((wz : ℚ) * BIG_MOUNTAIN_FREQ)
      let big_m1 := (big_m0 + 1.0) * 0.5
      let big_m := big_m1 * big_m1 * big_m1 * BIG_MOUNTAIN_AMP
      let mask_strength2 := mask_strength * mask_strength * (3 - 2 * mask_strength)
      blended1 + (small_m + big_m) * mask_strength2
    else blended1
  let large_flat := simplex_noise_2d p ((wx : ℚ) * SEMI_FLAT_LARGE_FREQ)
    ((wz : ℚ) * SEMI_FLAT_LARGE_FREQ)
  let medium_flat := simplex_noise_2d p ((wx : ℚ) * SEMI_FLAT_MEDIUM_FREQ)
    ((wz : ℚ) * SEMI_FLAT_MEDIUM_FREQ)
  let small_flat := simplex_noise_2d p ((wx : ℚ) * SEMI_FLAT_SMALL_FREQ)
    ((wz : ℚ) * SEMI_FLAT_SMALL_FREQ)
  let fs1 := if SEMI_FLAT_THRESHOLD < large_flat then
      max 0.0 (large_flat - SEMI_FLAT_THRESHOLD) else 0.0
  let fs2 := if SEMI_FLAT_THRESHOLD < medium_flat then
      max fs1 (medium_flat - SEMI_FLAT_THRESHOLD) else fs1
  let fs3 := if SEMI_FLAT_THRESHOLD < small_flat then
      max fs2 (small_flat - SEMI_FLAT_THRESHOLD) else fs2
  let blended3 :=
    if 0 < fs3 then
      let blend_factor := min (fs3 * 3.0) 1.0
      let current_deviation := blended2 - BASE_HEIGHT
      let dampened_deviation := current_deviation * SEMI_FLAT_FACTOR
      let semi_flat_height := BASE_HEIGHT + dampened_deviation
      blended2 * (1.0 - blend_factor) + semi_flat_height * blend_factor
    else blended2
  let height := pyInt blended3
  let height1 := if height < 1 then 1 else height
  if CHUNK_SIZE_Y ≤ height1 then CHUNK_SIZE_Y - 1 else height1

/-- util.py `get_biome`, as a pure function of the permutation table. -/
def get_biome (p : List ℕ) (wx wz : ℤ) : String :=
  let continental_noise := simplex_noise_2d p ((wx : ℚ) * 0.003) ((wz : ℚ) * 0.003)
  let regional_noise := simplex_noise_2d p ((wx : ℚ) * 0.008) ((wz : ℚ) * 0.008)
  let local_noise := simplex_noise_2d p ((wx : ℚ) * 0.02) ((wz : ℚ) * 0.02)
  let variation_noise := simplex_noise_2d p ((wx : ℚ) * 0.012 + 100.0)
    ((wz : ℚ) * 0.012 + 100.0)
  let combined_noise := continental_noise * 0.5 + regional_noise * 0.25 +
    local_noise * 0.15 + variation_noise * 0.1
  let threshold_variation := simplex_noise_2d p ((wx : ℚ) * 0.001) ((wz : ℚ) * 0.001) * 0.1
  let desert_threshold := -0.5 + threshold_variation
  if combined_noise < desert_threshold then "desert"
  else if 0.3 + threshold_variation < combined_noise then "jungle"
  else "plains"

/-- world.py `World.block_id_at` (reads no world state; `p` is the
noise permutation table `_PERM`). -/
def block_id_at (p : List ℕ) (wx wy wz : ℤ) : ℕ :=
  if wy < 0 then BLOCK_BEDROCK
  else if wy = 0 then BLOCK_BEDROCK
  else if CHUNK_SIZE_Y ≤ wy then BLOCK_AIR
  else
    let h := terrain_height p wx wz
    if h < wy then BLOCK_AIR
    else if wy = h then BLOCK_GRASS
    else if h - 3 ≤ wy then BLOCK_DIRT
    else BLOCK_STONE

/-- world.py `World.get_block`. -/
def World.get_block (w : World) (p : List ℕ) (wx wy wz : ℤ) : ℕ :=
  if wy < 0 then BLOCK_BEDROCK
  else if CHUNK_SIZE_Y ≤ wy then BLOCK_AIR
  else
    let cx := wx / CHUNK_SIZE_X
    let cz := wz / CHUNK_SIZE_Z
    match w.chunks (cx, cz) with
    | some chunk =>
        chunk.get_block_local (wx - cx * CHUNK_SIZE_X) wy (wz - cz * CHUNK_SIZE_Z)
    | none => block_id_at p wx wy wz

/-! ### The util.py module state: seed / permutation table lifecycle -/

/-- An API call against util.py's module state: `set_world_seed`, or a
read-only terrain query. -/
inductive NoiseCall where
  | setSeed (seed : ℤ)
  | queryHeight (wx wz : ℤ)
  | queryBiome (wx wz : ℤ)
deriving DecidableEq

inductive NoiseReply where
  | ok
  | height (h : ℤ)
  | biome (b : String)
deriving DecidableEq

/-- One call against the module state (the `_PERM` table).  `initPerm`
models `_init_simplex_noise`: `random.Random(seed)` shuffling
`range(256)` then duplicating the table — a fixed function of the seed
(Python's seeded Mersenne-Twister shuffle is deterministic).
`set_world_seed` replaces the table; the queries only read it. -/
def noiseStep (initPerm : ℤ → List ℕ) (st : List ℕ) :
    NoiseCall → List ℕ × NoiseReply
  | .setSeed seed => (initPerm seed, .ok)
  | .queryHeight wx wz => (st, .height (terrain_height st wx wz))
  | .queryBiome wx wz => (st, .biome (get_biome st wx wz))

/-- Run a call sequence against the module state, collecting replies. -/
def noiseRun (initPerm : ℤ → List ℕ) (st : List ℕ) : List NoiseCall → List NoiseReply
  | [] => []
  | c :: cs => (noiseStep initPerm st c).2 :: noiseRun initPerm (noiseStep initPerm st c).1 cs

/-- The reply a call gets from a fixed table, independent of history. -/
def pureReply (p : List ℕ) : NoiseCall → NoiseReply
  | .setSeed _ => .ok
  | .queryHeight wx wz => .height (terrain_height p wx wz)
  | .queryBiome wx wz => .biome (get_biome p wx wz)

def isSetSeed : NoiseCall → Bool
  | .setSeed _ => true
  | _ => false


/-! ### util.py `generate_chunk_caves` -/

/-- The per-step sphere carve inside `generate_chunk_caves`: for the
worm's current position `(wxq, wyq, wzq)` and `radius`, carve every
block of the sphere that falls inside the target chunk `(cx, cz)`,
clamped to y ∈ [1, SY-2] ("don't carve bedrock / the top layer"),
returning chunk-local coordinates. -/
def carveSphere (cx cz : ℤ) (wxq wyq wzq radius : ℚ) : List (ℤ × ℤ × ℤ) :=
  let min_wx := cx * CHUNK_SIZE_X
  let max_wx := min_wx + CHUNK_SIZE_X
  let min_wz := cz * CHUNK_SIZE_Z
  let max_wz := min_wz + CHUNK_SIZE_Z
  let s_min_x := pyInt (wxq - radius)
  let s_max_x := pyInt (wxq + radius + 1)
  let s_min_z := pyInt (wzq - radius)
  let s_max_z := pyInt (wzq + radius + 1)
  let s_min_y := pyInt (wyq - radius)
  let s_max_y := pyInt (wyq + radius + 1)
  if min_wx ≤ s_max_x ∧ s_min_x < max_wx ∧ min_wz ≤ s_max_z ∧ s_min_z < max_wz then
    let iter_min_x := max s_min_x min_wx
    let iter_max_x := min s_max_x max_wx
    let iter_min_z := max s_min_z min_wz
    let iter_max_z := min s_max_z max_wz
    let iter_min_y := max s_min_y 1
    let iter_max_y := min s_max_y (CHUNK_SIZE_Y - 1)
    let r_sq := radius * radius
    (intRange iter_min_x iter_max_x).flatMap fun (bx : ℤ) =>
      (intRange iter_min_z iter_max_z).flatMap fun (bz : ℤ) =>
        (intRange iter_min_y iter_max_y).filterMap fun (bY : ℤ) =>
          if ((bx : ℚ) - wxq) * ((bx : ℚ) - wxq) + ((bY : ℚ) - wyq) * ((bY : ℚ) - wyq) +
              ((bz : ℚ) - wzq) * ((bz : ℚ) - wzq) < r_sq then
            some (bx - min_wx, bY, bz - min_wz)
          else none
  else []

/-- util.py `generate_chunk_caves`, parameterized by the worm sphere
positions.  The worm list and each worm's step-by-step position/radius
come from the seeded RNG (`get_chunk_worms`), the path noise, and
`math.cos`/`math.sin`; those values enter the model as the arbitrary
list `spheres` of `(x, y, z, radius)` carve parameters, while the
per-sphere carving — the only code that decides which local coordinates
are returned — is translated exactly.  (The source accumulates into a
Python set; only membership matters for the claims.) -/
def generate_chunk_caves (cx cz : ℤ) (spheres : List (ℚ × ℚ × ℚ × ℚ)) :
    List (ℤ × ℤ × ℤ) :=
  spheres.flatMap fun sp => carveSphere cx cz sp.1 sp.2.1 sp.2.2.1 sp.2.2.2


/-! ### chunk.py `Chunk.build_mesh`: which quads are emitted -/

/-- A face direction of a block quad. -/
inductive Face where
  | top
  | bottom
  | px
  | nx
  | pz
  | nz
deriving DecidableEq

/-- The quads `build_mesh` emits for one grid cell: nothing when the
block id is air (`continue`); nothing when the all-six-neighbors
early-out fires (at y = 0 the below-world side counts as occluded
there); otherwise one quad per face direction whose neighbor is not
solid — except that the bottom quad is also emitted whenever y = 0
(`if y == 0 or not is_world_solid(...)`).  Each listed face is one
`add_quad` call, i.e. 4 vertices and 2 triangles. -/
def blockFaces (is_world_solid : ℤ → ℤ → ℤ → Bool) (block_id : ℕ)
    (wx y wz : ℤ) : List Face :=
  if ¬ is_block_solid block_id then []
  else if is_world_solid wx (y + 1) wz ∧ (y = 0 ∨ is_world_solid wx (y - 1) wz) ∧
      is_world_solid (wx + 1) y wz ∧ is_world_solid (wx - 1) y wz ∧
      is_world_solid wx y (wz + 1) ∧ is_world_solid wx y (wz - 1) then []
  else
    (if ¬ is_world_solid wx (y + 1) wz then [Face.top] else []) ++
    (if y = 0 ∨ ¬ is_world_solid wx (y - 1) wz then [Face.bottom] else []) ++
    (if ¬ is_world_solid (wx + 1) y wz then [Face.px] else []) ++
    (if ¬ is_world_solid (wx - 1) y wz then [Face.nx] else []) ++
    (if ¬ is_world_solid wx y (wz + 1) then [Face.pz] else []) ++
    (if ¬ is_world_solid wx y (wz - 1) then [Face.nz] else [])

/-- chunk.py `Chunk.build_mesh`, reduced to the emitted quads: the
triple `y / lz / lx` loop over the grid, concatenating each cell's
`blockFaces` (tagged with the cell).  Colors, biome tints, texture UVs
and the Panda3D vertex writers do not influence which quads exist, so
they are outside the model. -/
def Chunk.build_mesh_faces (c : Chunk) (is_world_solid : ℤ → ℤ → ℤ → Bool) :
    List ((ℤ × ℤ × ℤ) × Face) :=
  (intRange 0 CHUNK_SIZE_Y).flatMap fun (y : ℤ) =>
    (intRange 0 CHUNK_SIZE_Z).flatMap fun (lz : ℤ) =>
      (intRange 0 CHUNK_SIZE_X).flatMap fun (lx : ℤ) =>
        (blockFaces is_world_solid (c.get_block_local lx y lz)
          (c.cx * CHUNK_SIZE_X + lx) y (c.cz * CHUNK_SIZE_Z + lz)).map
          fun f => ((lx, y, lz), f)

/-- How many of the six neighbors of a cell are NOT solid per the
callback (the below neighbor of a y = 0 cell is the cell at y = -1). -/
def nonSolidNeighborCount (is_world_solid : ℤ → ℤ → ℤ → Bool) (wx y wz : ℤ) : ℕ :=
  (if is_world_solid wx (y + 1) wz then 0 else 1) +
  (if is_world_solid wx (y - 1) wz then 0 else 1) +
  (if is_world_solid (wx + 1) y wz then 0 else 1) +
  (if is_world_solid (wx - 1) y wz then 0 else 1) +
  (if is_world_solid wx y (wz + 1) then 0 else 1) +
  (if is_world_solid wx y (wz - 1) then 0 else 1)

/-- A solidity callback that is solid everywhere except at (0, 1, 0). -/
def solidExceptTop : ℤ → ℤ → ℤ → Bool :=
  fun p q r => !(decide (p = 0 ∧ q = 1 ∧ r = 0))


/-! ### player.py: the player controller -/

/-- Panda3D `Vec3`, restricted to the fields used. -/
structure Vec3 where
  x : ℚ
  y : ℚ
  z : ℚ
deriving DecidableEq

/-- The key states `Player.update` reads. -/
structure Keys where
  forward : Bool
  back : Bool
  left : Bool
  right : Bool
  jump : Bool
  crouch : Bool
deriving DecidableEq

/-- The irrational math primitives the controller calls (`math.sin`,
`math.cos`, `math.sqrt`, `math.radians`): real-valued functions supplied
as parameters of the model, since their float values are not rational. -/
structure RealFns where
  sinF : ℚ → ℚ
  cosF : ℚ → ℚ
  sqrtF : ℚ → ℚ
  radiansF : ℚ → ℚ

/-- player.py `Player`: the physics / survival state `update` touches.
(The camera, orientation pitch, block-breaking and inventory state play
no part in the physics step; `yaw` is kept because the wish direction
reads it.) -/
structure PlayerState where
  game_mode : String
  yaw : ℚ
  position : Vec3
  velocity : Vec3
  on_ground : Bool
  is_flying : Bool
  last_jump_time : ℚ
  fly_speed_multiplier : ℚ
  max_health : ℚ
  health : ℚ
  max_hunger : ℚ
  hunger : ℚ
  saturation : ℚ
  fall_start_y : ℚ
  last_on_ground : Bool
  regen_timer : ℚ
  hunger_timer : ℚ
  keys_prev_jump : Bool

/-- player.py `Player._approach`. -/
def approach (current target delta : ℚ) : ℚ :=
  if current < target then min target (current + delta)
  else if target < current then max target (current - delta)
  else current

/-- player.py `Player._player_aabb`. -/
def PlayerState.player_aabb (ps : PlayerState) : AABB :=
  ⟨ps.position.x - PLAYER_WIDTH * 0.5, ps.position.y, ps.position.z - PLAYER_DEPTH * 0.5,
   ps.position.x + PLAYER_WIDTH * 0.5, ps.position.y + PLAYER_HEIGHT,
   ps.position.z + PLAYER_DEPTH * 0.5⟩

/-- player.py `Player.take_damage` (the print is a no-op here). -/
def PlayerState.take_damage (ps : PlayerState) (amount : ℚ) : PlayerState :=
  if ps.game_mode = "Creative" then ps
  else
    let h := ps.health - amount
    { ps with health := if h < 0 then 0 else h }

/-- player.py `Player.heal`. -/
def PlayerState.heal (ps : PlayerState) (amount : ℚ) : PlayerState :=
  let h := ps.health + amount
  { ps with health := if ps.max_health < h then ps.max_health else h }

/-- player.py `Player.consume_hunger`. -/
def PlayerState.consume_hunger (ps : PlayerState) (amount : ℚ) : PlayerState :=
  let sa : ℚ × ℚ :=
    if 0 < ps.saturation then
      let sat1 := ps.saturation - amount
      if sat1 < 0 then (0, -sat1) else (sat1, 0)
    else (ps.saturation, amount)
  let ps1 : PlayerState := { ps with saturation := sa.1 }
  if 0 < sa.2 then
    let hg := ps1.hunger - sa.2
    { ps1 with hunger := if hg < 0 then 0 else hg }
  else ps1

/-- player.py `Player.respawn` (camera update omitted). -/
def PlayerState.respawn (perm : List ℕ) (ps : PlayerState) : PlayerState :=
  let ground_h := terrain_height perm 0 0
  { ps with
    position := ⟨0, (ground_h : ℚ) + 3, 0⟩,
    velocity := ⟨0, 0, 0⟩,
    health := ps.max_health,
    hunger := ps.max_hunger,
    fall_start_y := (ground_h : ℚ) + 3 }

/-- player.py `Player.update_survival`. -/
def PlayerState.update_survival (perm : List ℕ) (ps : PlayerState) (dt : ℚ) : PlayerState :=
  if ps.game_mode = "Creative" then ps
  else
    let ps1 : PlayerState :=
      if 16 < ps.hunger ∧ ps.health < ps.max_health then
        let psr : PlayerState := { ps with regen_timer := ps.regen_timer + dt }
        if 4 ≤ psr.regen_timer then
          { (psr.heal 1.0).consume_hunger 0.25 with regen_timer := 0 }
        else psr
      else ps
    let psh : PlayerState := { ps1 with hunger_timer := ps1.hunger_timer + dt }
    let ps2 : PlayerState :=
      if 30 ≤ psh.hunger_timer then
        { psh.consume_hunger 0.5 with hunger_timer := 0 }
      else psh
    if ps2.health ≤ 0 then PlayerState.respawn perm ps2 else ps2

/-- `Player.update`, movement-intent and horizontal-velocity section:
movement intent from `move_vec` or the digital keys, the yaw-based wish
direction, then ground friction (no input, grounded) or acceleration
toward the desired velocity. -/
def updateHorizontalVelocity (fns : RealFns) (ps : PlayerState) (keys : Keys)
    (dt : ℚ) (move_vec : Option (ℚ × ℚ)) : PlayerState :=
  let mv : ℚ × ℚ :=
    match move_vec with
    | some v => (v.1, v.2)
    | none =>
        ((if keys.right then (1 : ℚ) else 0) - (if keys.left then (1 : ℚ) else 0),
         (if keys.forward then (1 : ℚ) else 0) - (if keys.back then (1 : ℚ) else 0))
  let wish : ℚ × ℚ :=
    if mv.1 ≠ 0 ∨ mv.2 ≠ 0 then
      let yaw_rad := fns.radiansF ps.yaw
      let fwd_x := -(fns.sinF yaw_rad)
      let fwd_z := fns.cosF yaw_rad
      let right_x := fns.cosF yaw_rad
      let right_z := fns.sinF yaw_rad
      let wx0 := fwd_x * mv.2 + right_x * mv.1
      let wz0 := fwd_z * mv.2 + right_z * mv.1
      let len := fns.sqrtF (wx0 * wx0 + wz0 * wz0)
      if 0 < len then (wx0 / len, wz0 / len) else (wx0, wz0)
    else (0, 0)
  let speed_mult := if ps.is_flying then ps.fly_speed_multiplier else 1
  let desired_x := wish.1 * MOVE_SPEED * speed_mult
  let desired_z := wish.2 * MOVE_SPEED * speed_mult
  let ax := if ps.on_ground then ACCEL_GROUND else ACCEL_AIR
  if ps.on_ground ∧ mv.1 = 0 ∧ mv.2 = 0 then
    let vx := ps.velocity.x
    let vz := ps.velocity.z
    let speed := fns.sqrtF (vx * vx + vz * vz)
    let drop := FRICTION * dt
    let new_speed := max 0 (speed - drop)
    if 0 < speed then
      let scale := new_speed / speed
      { ps with velocity := ⟨vx * scale, ps.velocity.y, vz * scale⟩ }
    else ps
  else
    { ps with velocity :=
        ⟨approach ps.velocity.x desired_x (ax * dt), ps.velocity.y,
         approach ps.velocity.z desired_z (ax * dt)⟩ }

/-- `Player.update`, jump / flight-toggle / crouch-descent section,
ending with the `keys_prev_jump` update.  `now` models `time.time()`. -/
def updateJumpAndFlight (now : ℚ) (ps : PlayerState) (keys : Keys) : PlayerState :=
  let ps2 : PlayerState :=
    if keys.jump then
      if ¬ ps.keys_prev_jump then
        let psA : PlayerState :=
          if ps.game_mode = "Creative" then
            if now - ps.last_jump_time < 0.3 then
              { ps with
                is_flying := !(ps.is_flying),
                velocity := ⟨ps.velocity.x, 0, ps.velocity.z⟩,
                last_jump_time := 0 }
            else { ps with last_jump_time := now }
          else ps
        if psA.is_flying then
          { psA with velocity := ⟨psA.velocity.x, JUMP_SPEED, psA.velocity.z⟩ }
        else if psA.on_ground then
          { psA with
            velocity := ⟨psA.velocity.x, JUMP_SPEED, psA.velocity.z⟩,
            on_ground := false }
        else psA
      else ps
    else
      if ps.is_flying then { ps with velocity := ⟨ps.velocity.x, 0, ps.velocity.z⟩ }
      else ps
  let ps3 : PlayerState :=
    if ps2.is_flying ∧ keys.crouch then
      { ps2 with velocity := ⟨ps2.velocity.x, -JUMP_SPEED, ps2.velocity.z⟩ }
    else ps2
  { ps3 with keys_prev_jump := keys.jump }

/-- `Player.update`, gravity. -/
def applyGravity (ps : PlayerState) (dt : ℚ) : PlayerState :=
  if ¬ ps.is_flying then
    { ps with velocity := ⟨ps.velocity.x, ps.velocity.y - GRAVITY * dt, ps.velocity.z⟩ }
  else ps

/-- `Player.update`, x-axis collision step. -/
def integrateX (solid : ℤ → ℤ → ℤ → Bool) (ps : PlayerState) (aabb : AABB)
    (dx : ℚ) : PlayerState × AABB :=
  let allowed_dx := (sweep_axis solid aabb dx .x).1
  let ps1 : PlayerState :=
    if allowed_dx ≠ dx then { ps with velocity := ⟨0, ps.velocity.y, ps.velocity.z⟩ }
    else ps
  ({ ps1 with position := ⟨ps1.position.x + allowed_dx, ps1.position.y, ps1.position.z⟩ },
   aabb.moved allowed_dx 0 0)

/-- `Player.update`, y-axis collision step: landing (with fall damage),
peak-height tracking, the walked-off-an-edge reset, and
`last_on_ground`. -/
def integrateY (solid : ℤ → ℤ → ℤ → Bool) (ps : PlayerState) (aabb : AABB)
    (dy : ℚ) : PlayerState × AABB :=
  let allowed_dy := (sweep_axis solid aabb dy .y).1
  let ps8 : PlayerState :=
    if allowed_dy ≠ dy then
      let psL : PlayerState :=
        if dy < 0 then
          let psK : PlayerState :=
            if ¬ ps.on_ground then
              let fall_distance := ps.fall_start_y - ps.position.y - allowed_dy
              if 0 < fall_distance then
                let damage_points : ℤ := max 0 (pyInt (fall_distance - 3))
                if 0 < damage_points then ps.take_damage (damage_points : ℚ) else ps
              else ps
            else ps
          { psK with on_ground := true, fall_start_y := psK.position.y + allowed_dy }
        else ps
      { psL with velocity := ⟨psL.velocity.x, 0, psL.velocity.z⟩ }
    else
      if 0 < dy then { ps with on_ground := false } else ps
  let ps9 : PlayerState :=
    if 0 < ps8.velocity.y then
      { ps8 with fall_start_y := max ps8.fall_start_y (ps8.position.y + allowed_dy) }
    else ps8
  let ps10 : PlayerState := { ps9 with position := ⟨ps9.position.x, ps9.position.y + allowed_dy, ps9.position.z⟩ }
  let ps11 : PlayerState :=
    if ¬ ps10.on_ground ∧ ps10.velocity.y ≤ 0 ∧ ps10.last_on_ground then
      { ps10 with fall_start_y := ps10.position.y }
    else ps10
  ({ ps11 with last_on_ground := ps11.on_ground }, aabb.moved 0 allowed_dy 0)

/-- `Player.update`, z-axis collision step. -/
def integrateZ (solid : ℤ → ℤ → ℤ → Bool) (ps : PlayerState) (aabb : AABB)
    (dz : ℚ) : PlayerState :=
  let allowed_dz := (sweep_axis solid aabb dz .z).1
  let ps1 : PlayerState :=
    if allowed_dz ≠ dz then { ps with velocity := ⟨ps.velocity.x, ps.velocity.y, 0⟩ }
    else ps
  { ps1 with position := ⟨ps1.position.x, ps1.position.y, ps1.position.z + allowed_dz⟩ }

/-- player.py `Player.update`: survival tick, movement intent and
horizontal velocity, jump/flight, gravity, then the per-axis swept
integration in x, y, z order (deltas are computed from the velocity
before any axis is resolved, as in the source); the camera update is
visual only and outside the model. -/
def Player.update (solid : ℤ → ℤ → ℤ → Bool) (perm : List ℕ) (fns : RealFns)
    (now : ℚ) (ps : PlayerState) (keys : Keys) (dt : ℚ)
    (move_vec : Option (ℚ × ℚ)) : PlayerState :=
  let ps0 : PlayerState := PlayerState.update_survival perm ps dt
  let ps1 : PlayerState := updateHorizontalVelocity fns ps0 keys dt move_vec
  let ps2 : PlayerState := updateJumpAndFlight now ps1 keys
  let ps3 : PlayerState := applyGravity ps2 dt
  let dx := ps3.velocity.x * dt
  let dy := ps3.velocity.y * dt
  let dz := ps3.velocity.z * dt
  let a0 := ps3.player_aabb
  let r1 := integrateX solid ps3 a0 dx
  let r2 := integrateY solid r1.1 r1.2 dy
  integrateZ solid r2.1 r2.2 dz

/-- A player falling straight down: centred at x = z = 1/2, feet at
height `y0`, vertical velocity `vy`, airborne, Survival mode, full
health and hunger. -/
def fallingPlayer (y0 vy : ℚ) : PlayerState :=
  { game_mode := "Survival", yaw := 0,
    position := ⟨1/2, y0, 1/2⟩, velocity := ⟨0, vy, 0⟩,
    on_ground := false, is_flying := false,
    last_jump_time := 0, fly_speed_multiplier := 2.5,
    max_health := 20, health := 20, max_hunger := 20, hunger := 20, saturation := 5,
    fall_start_y := y0, last_on_ground := false,
    regen_timer := 0, hunger_timer := 0, keys_prev_jump := false }

/-- A flat solid floor whose top surface is at y = 10: every block with
integer y ≤ 9 is solid. -/
def floorWorld : ℤ → ℤ → ℤ → Bool := fun _ bY _ => decide (bY ≤ 9)

/-- No keys held. -/
def keysNone : Keys := ⟨false, false, false, false, false, false⟩

/-- The falling player after the survival tick of one update with time
step `dt` (only the hunger timer has advanced). -/
def fallingPlayerFed (y0 vy dt : ℚ) : PlayerState :=
  { fallingPlayer y0 vy with hunger_timer := dt }

/-- The falling player after survival tick, horizontal-velocity pass,
jump pass and gravity of one update with time step `dt`. -/
def fallingPlayerStepped (y0 vy dt : ℚ) : PlayerState :=
  { fallingPlayerFed y0 vy dt with velocity := ⟨0, vy - GRAVITY * dt, 0⟩ }


/-! ### Concrete fixtures used by witnesses -/

/-- An all-air chunk at (0, 0). -/
def chunkAir : Chunk := Chunk.init 0 0

/-- An all-stone chunk at (1, 0) with a full-length grid. -/
def chunkStone : Chunk :=
  { cx := 1, cz := 0,
    blocks := List.replicate (CHUNK_SIZE_X * CHUNK_SIZE_Y * CHUNK_SIZE_Z).toNat BLOCK_STONE,
    dirty := false }

/-- A world with the air chunk loaded at key (0, 0) and the stone chunk
loaded at key (1, 0). -/
def worldTwoChunks : World :=
  { chunks := fun k =>
      if k = ((0 : ℤ), (0 : ℤ)) then some chunkAir
      else if k = ((1 : ℤ), (0 : ℤ)) then some chunkStone
      else none,
    generate := fun cx cz => Chunk.init cx cz }


end Blockforge

/-! ## Theorems -/

namespace Blockforge

/-- **C4**.  `is_solid` returns true below y = 0, false at or above `SY`;
for in-range y it reads the loaded chunk's stored block (solid iff its id
is nonzero), returns false when the chunk is not loaded, and never
consults terrain generation (replacing the `generate` field changes
nothing). -/
theorem is_solid_spec (w : World) (wx wy wz : ℤ) :
    (wy < 0 → w.is_solid wx wy wz = true) ∧
    (CHUNK_SIZE_Y ≤ wy → w.is_solid wx wy wz = false) ∧
    (0 ≤ wy → wy < CHUNK_SIZE_Y →
      (∀ c, w.chunks (wx / CHUNK_SIZE_X, wz / CHUNK_SIZE_Z) = some c →
        w.is_solid wx wy wz =
          is_block_solid (c.get_block_local (wx - (wx / CHUNK_SIZE_X) * CHUNK_SIZE_X) wy
            (wz - (wz / CHUNK_SIZE_Z) * CHUNK_SIZE_Z))) ∧
      (w.chunks (wx / CHUNK_SIZE_X, wz / CHUNK_SIZE_Z) = none →
        w.is_solid wx wy wz = false)) ∧
    (∀ g, World.is_solid { w with generate := g } wx wy wz = w.is_solid wx wy wz) := by
  refine ⟨fun h => ?_, fun h => ?_, fun h0 h1 => ⟨fun c hc => ?_, fun hc => ?_⟩, fun g => ?_⟩
  · simp [World.is_solid, h]
  · have : ¬ wy < 0 := by unfold CHUNK_SIZE_Y at h; omega
    simp [World.is_solid, this, h]
  · have hn : ¬ wy < 0 := by omega
    have hn2 : ¬ CHUNK_SIZE_Y ≤ wy := by omega
    simp [World.is_solid, hn, hn2, hc]
  · have hn : ¬ wy < 0 := by omega
    have hn2 : ¬ CHUNK_SIZE_Y ≤ wy := by omega
    simp [World.is_solid, hn, hn2, hc]
  · rfl

/-- Witness for C4 at a concrete world and coordinate. -/
theorem is_solid_spec_witness :
    ((fun _ => none : ℤ × ℤ → Option Chunk) (5 / CHUNK_SIZE_X, 7 / CHUNK_SIZE_Z) = none) ∧
    World.is_solid ⟨fun _ => none, fun cx cz => Chunk.init cx cz⟩ 5 20 7 = false := by
  refine ⟨rfl, ?_⟩
  exact ((is_solid_spec ⟨fun _ => none, fun cx cz => Chunk.init cx cz⟩ 5 20 7).2.2.1
    (by norm_num) (by norm_num [CHUNK_SIZE_Y])).2 rfl

theorem putChunk_chunks_ne (w : World) (key k : ℤ × ℤ) (c : Chunk) (h : k ≠ key) :
    (w.putChunk key c).chunks k = w.chunks k := by
  simp [World.putChunk, h]

theorem putChunk_chunks_self (w : World) (key : ℤ × ℤ) (c : Chunk) :
    (w.putChunk key c).chunks key = some c := by
  simp [World.putChunk]

/-- `dirtyNeighbor` leaves every other key untouched. -/
theorem dirtyNeighbor_chunks_ne (w : World) (key k : ℤ × ℤ) (h : k ≠ key) :
    (w.dirtyNeighbor key).chunks k = w.chunks k := by
  unfold World.dirtyNeighbor
  split
  · exact putChunk_chunks_ne _ _ _ _ h
  · rfl

/-- `dirtyNeighbor` on a loaded key stores the dirtied chunk there. -/
theorem dirtyNeighbor_chunks_self (w : World) (key : ℤ × ℤ) (nb : Chunk)
    (hnb : w.chunks key = some nb) :
    (w.dirtyNeighbor key).chunks key = some { nb with dirty := true } := by
  unfold World.dirtyNeighbor
  rw [hnb]
  exact putChunk_chunks_self _ _ _

/-- After `mark_neighbors_dirty`, any key other than the four neighbor
keys is untouched. -/
theorem mark_neighbors_chunks_other (w : World) (wx wz cx cz : ℤ) (k : ℤ × ℤ)
    (h1 : k ≠ (cx - 1, cz)) (h2 : k ≠ (cx + 1, cz))
    (h3 : k ≠ (cx, cz - 1)) (h4 : k ≠ (cx, cz + 1)) :
    (w.mark_neighbors_dirty wx wz cx cz).chunks k = w.chunks k := by
  simp only [World.mark_neighbors_dirty]
  split_ifs <;>
    simp only [dirtyNeighbor_chunks_ne _ _ _ h1, dirtyNeighbor_chunks_ne _ _ _ h2,
      dirtyNeighbor_chunks_ne _ _ _ h3, dirtyNeighbor_chunks_ne _ _ _ h4]

/-- `mark_neighbors_dirty` at local x = 0 dirties the loaded `(cx-1, cz)`
neighbor. -/
theorem mark_neighbors_left (w : World) (wx wz cx cz : ℤ)
    (hx : wx - cx * CHUNK_SIZE_X = 0) (nb : Chunk)
    (hnb : w.chunks (cx - 1, cz) = some nb) :
    (w.mark_neighbors_dirty wx wz cx cz).chunks (cx - 1, cz) =
      some { nb with dirty := true } := by
  simp only [World.mark_neighbors_dirty]
  rw [if_pos hx]
  have hne1 : ((cx : ℤ) - 1, cz) ≠ (cx, cz - 1) := by intro h; rw [Prod.mk.injEq] at h; omega
  have hne2 : ((cx : ℤ) - 1, cz) ≠ (cx, cz + 1) := by intro h; rw [Prod.mk.injEq] at h; omega
  have hself := dirtyNeighbor_chunks_self w _ _ hnb
  split_ifs <;>
    simp only [dirtyNeighbor_chunks_ne _ _ _ hne1, dirtyNeighbor_chunks_ne _ _ _ hne2, hself]

/-- `mark_neighbors_dirty` at local x = SX-1 dirties the loaded
`(cx+1, cz)` neighbor. -/
theorem mark_neighbors_right (w : World) (wx wz cx cz : ℤ)
    (hx : wx - cx * CHUNK_SIZE_X = CHUNK_SIZE_X - 1) (nb : Chunk)
    (hnb : w.chunks (cx + 1, cz) = some nb) :
    (w.mark_neighbors_dirty wx wz cx cz).chunks (cx + 1, cz) =
      some { nb with dirty := true } := by
  simp only [World.mark_neighbors_dirty]
  have hx0 : ¬ (wx - cx * CHUNK_SIZE_X = 0) := by rw [hx]; unfold CHUNK_SIZE_X; omega
  rw [if_neg hx0, if_pos hx]
  have hne1 : ((cx : ℤ) + 1, cz) ≠ (cx, cz - 1) := by intro h; rw [Prod.mk.injEq] at h; omega
  have hne2 : ((cx : ℤ) + 1, cz) ≠ (cx, cz + 1) := by intro h; rw [Prod.mk.injEq] at h; omega
  have hself := dirtyNeighbor_chunks_self w _ _ hnb
  split_ifs <;>
    simp only [dirtyNeighbor_chunks_ne _ _ _ hne1, dirtyNeighbor_chunks_ne _ _ _ hne2, hself]

/-- `mark_neighbors_dirty` at local z = 0 dirties the loaded `(cx, cz-1)`
neighbor. -/
theorem mark_neighbors_front (w : World) (wx wz cx cz : ℤ)
    (hz : wz - cz * CHUNK_SIZE_Z = 0) (nb : Chunk)
    (hnb : w.chunks (cx, cz - 1) = some nb) :
    (w.mark_neighbors_dirty wx wz cx cz).chunks (cx, cz - 1) =
      some { nb with dirty := true } := by
  simp only [World.mark_neighbors_dirty]
  have hne1 : ((cx : ℤ), cz - 1) ≠ (cx - 1, cz) := by intro h; rw [Prod.mk.injEq] at h; omega
  have hne2 : ((cx : ℤ), cz - 1) ≠ (cx + 1, cz) := by intro h; rw [Prod.mk.injEq] at h; omega
  rw [if_pos hz]
  refine dirtyNeighbor_chunks_self _ _ _ ?_
  split_ifs <;>
    simp only [dirtyNeighbor_chunks_ne _ _ _ hne1, dirtyNeighbor_chunks_ne _ _ _ hne2, hnb]

/-- `mark_neighbors_dirty` at local z = SZ-1 dirties the loaded
`(cx, cz+1)` neighbor. -/
theorem mark_neighbors_back (w : World) (wx wz cx cz : ℤ)
    (hz : wz - cz * CHUNK_SIZE_Z = CHUNK_SIZE_Z - 1) (nb : Chunk)
    (hnb : w.chunks (cx, cz + 1) = some nb) :
    (w.mark_neighbors_dirty wx wz cx cz).chunks (cx, cz + 1) =
      some { nb with dirty := true } := by
  simp only [World.mark_neighbors_dirty]
  have hz0 : ¬ (wz - cz * CHUNK_SIZE_Z = 0) := by rw [hz]; unfold CHUNK_SIZE_Z; omega
  have hne1 : ((cx : ℤ), cz + 1) ≠ (cx - 1, cz) := by intro h; rw [Prod.mk.injEq] at h; omega
  have hne2 : ((cx : ℤ), cz + 1) ≠ (cx + 1, cz) := by intro h; rw [Prod.mk.injEq] at h; omega
  rw [if_neg hz0, if_pos hz]
  refine dirtyNeighbor_chunks_self _ _ _ ?_
  split_ifs <;>
    simp only [dirtyNeighbor_chunks_ne _ _ _ hne1, dirtyNeighbor_chunks_ne _ _ _ hne2, hnb]

/-- A fully-interior write marks no neighbor: `mark_neighbors_dirty` is
the identity. -/
theorem mark_neighbors_interior (w : World) (wx wz cx cz : ℤ)
    (hx0 : wx - cx * CHUNK_SIZE_X ≠ 0) (hx7 : wx - cx * CHUNK_SIZE_X ≠ CHUNK_SIZE_X - 1)
    (hz0 : wz - cz * CHUNK_SIZE_Z ≠ 0) (hz7 : wz - cz * CHUNK_SIZE_Z ≠ CHUNK_SIZE_Z - 1) :
    w.mark_neighbors_dirty wx wz cx cz = w := by
  simp only [World.mark_neighbors_dirty]
  rw [if_neg hx0, if_neg hx7, if_neg hz0, if_neg hz7]

/-- Every successful write factors as: update the written chunk's key,
then `mark_neighbors_dirty`; all other keys still hold their old chunks
before the marking step. -/
theorem write_success_shape (w : World) (wx wy wz : ℤ) (b : ℕ) :
    ∀ res ∈ [w.remove_block wx wy wz, w.place_block wx wy wz b],
      res.1 = true →
      ∃ w1 : World,
        res.2 = w1.mark_neighbors_dirty wx wz (wx / CHUNK_SIZE_X) (wz / CHUNK_SIZE_Z) ∧
        ∀ k, k ≠ (wx / CHUNK_SIZE_X, wz / CHUNK_SIZE_Z) → w1.chunks k = w.chunks k := by
  intro res hres hok
  simp only [List.mem_cons, List.mem_singleton, List.not_mem_nil, or_false] at hres
  rcases hres with rfl | rfl
  · by_cases hb : wy ≤ 0 ∨ CHUNK_SIZE_Y ≤ wy
    · simp [World.remove_block, hb] at hok
    · rcases hc : w.chunks (wx / CHUNK_SIZE_X, wz / CHUNK_SIZE_Z) with _ | chunk
      · simp [World.remove_block, hb, hc] at hok
      · by_cases hair : chunk.get_block_local (wx - wx / CHUNK_SIZE_X * CHUNK_SIZE_X) wy
            (wz - wz / CHUNK_SIZE_Z * CHUNK_SIZE_Z) = BLOCK_AIR
        · simp [World.remove_block, hb, hc, hair] at hok
        · refine ⟨w.putChunk (wx / CHUNK_SIZE_X, wz / CHUNK_SIZE_Z)
            (chunk.set_block_local (wx - wx / CHUNK_SIZE_X * CHUNK_SIZE_X) wy
              (wz - wz / CHUNK_SIZE_Z * CHUNK_SIZE_Z) BLOCK_AIR), ?_,
            fun k hk => putChunk_chunks_ne w _ k _ hk⟩
          simp [World.remove_block, hb, hc, hair]
  · by_cases hb : wy ≤ 0 ∨ CHUNK_SIZE_Y ≤ wy
    · simp [World.place_block, hb] at hok
    · rcases hc : w.chunks (wx / CHUNK_SIZE_X, wz / CHUNK_SIZE_Z) with _ | chunk
      · by_cases hocc : (w.generate (wx / CHUNK_SIZE_X) (wz / CHUNK_SIZE_Z)).get_block_local
            (wx - wx / CHUNK_SIZE_X * CHUNK_SIZE_X) wy (wz - wz / CHUNK_SIZE_Z * CHUNK_SIZE_Z) =
            BLOCK_AIR
        · refine ⟨(w.putChunk (wx / CHUNK_SIZE_X, wz / CHUNK_SIZE_Z)
              (w.generate (wx / CHUNK_SIZE_X) (wz / CHUNK_SIZE_Z))).putChunk
                (wx / CHUNK_SIZE_X, wz / CHUNK_SIZE_Z)
              ((w.generate (wx / CHUNK_SIZE_X) (wz / CHUNK_SIZE_Z)).set_block_local
                (wx - wx / CHUNK_SIZE_X * CHUNK_SIZE_X) wy
                (wz - wz / CHUNK_SIZE_Z * CHUNK_SIZE_Z) b), ?_, fun k hk => ?_⟩
          · simp [World.place_block, World.ensure_chunk, hb, hc, hocc]
          · rw [putChunk_chunks_ne _ _ k _ hk, putChunk_chunks_ne _ _ k _ hk]
        · simp [World.place_block, World.ensure_chunk, hb, hc, hocc] at hok
      · by_cases hocc : chunk.get_block_local (wx - wx / CHUNK_SIZE_X * CHUNK_SIZE_X) wy
            (wz - wz / CHUNK_SIZE_Z * CHUNK_SIZE_Z) = BLOCK_AIR
        · refine ⟨w.putChunk (wx / CHUNK_SIZE_X, wz / CHUNK_SIZE_Z)
            (chunk.set_block_local (wx - wx / CHUNK_SIZE_X * CHUNK_SIZE_X) wy
              (wz - wz / CHUNK_SIZE_Z * CHUNK_SIZE_Z) b), ?_,
            fun k hk => putChunk_chunks_ne w _ k _ hk⟩
          simp [World.place_block, World.ensure_chunk, hb, hc, hocc]
        · simp [World.place_block, World.ensure_chunk, hb, hc, hocc] at hok

/-- **C2**.  `remove_block` on a cell of a loaded chunk that already
holds air fails and returns the world unchanged (in particular the
chunk's dirty flag and grid are unchanged); `place_block` on an occupied
cell fails and returns the world unchanged. -/
theorem noop_rejection (w : World) (wx wy wz : ℤ) (b : ℕ) (c : Chunk)
    (hc : w.chunks (wx / CHUNK_SIZE_X, wz / CHUNK_SIZE_Z) = some c) :
    (c.get_block_local (wx - wx / CHUNK_SIZE_X * CHUNK_SIZE_X) wy
        (wz - wz / CHUNK_SIZE_Z * CHUNK_SIZE_Z) = BLOCK_AIR →
      w.remove_block wx wy wz = (false, w)) ∧
    (c.get_block_local (wx - wx / CHUNK_SIZE_X * CHUNK_SIZE_X) wy
        (wz - wz / CHUNK_SIZE_Z * CHUNK_SIZE_Z) ≠ BLOCK_AIR →
      w.place_block wx wy wz b = (false, w)) := by
  constructor
  · intro hair
    by_cases hb : wy ≤ 0 ∨ CHUNK_SIZE_Y ≤ wy
    · simp [World.remove_block, hb]
    · simp [World.remove_block, hb, hc, hair]
  · intro hocc
    by_cases hb : wy ≤ 0 ∨ CHUNK_SIZE_Y ≤ wy
    · simp [World.place_block, hb]
    · simp [World.place_block, World.ensure_chunk, hb, hc, hocc]

/-- Witness for C2: mining air in the loaded air chunk fails and changes
nothing; placing into an occupied stone cell fails and changes nothing. -/
theorem noop_rejection_witness :
    (worldTwoChunks.chunks (0 / CHUNK_SIZE_X, 0 / CHUNK_SIZE_Z) = some chunkAir ∧
      chunkAir.get_block_local (0 - 0 / CHUNK_SIZE_X * CHUNK_SIZE_X) 5
        (0 - 0 / CHUNK_SIZE_Z * CHUNK_SIZE_Z) = BLOCK_AIR ∧
      worldTwoChunks.remove_block 0 5 0 = (false, worldTwoChunks)) ∧
    (worldTwoChunks.chunks (8 / CHUNK_SIZE_X, 0 / CHUNK_SIZE_Z) = some chunkStone ∧
      chunkStone.get_block_local (8 - 8 / CHUNK_SIZE_X * CHUNK_SIZE_X) 5
        (0 - 0 / CHUNK_SIZE_Z * CHUNK_SIZE_Z) ≠ BLOCK_AIR ∧
      worldTwoChunks.place_block 8 5 0 BLOCK_DIRT = (false, worldTwoChunks)) := by
  refine ⟨⟨rfl, by decide, ?_⟩, ⟨rfl, by decide, ?_⟩⟩
  · exact (noop_rejection worldTwoChunks 0 5 0 BLOCK_DIRT chunkAir rfl).1 (by decide)
  · exact (noop_rejection worldTwoChunks 8 5 0 BLOCK_DIRT chunkStone rfl).2 (by decide)

/-- **C3**.  A successful block write (by `remove_block` or
`place_block`) whose cell sits on a chunk boundary marks the loaded
neighbor chunk on that side dirty (local x = 0 marks (cx-1, cz); local
x = SX-1 marks (cx+1, cz); local z = 0 marks (cx, cz-1); local z = SZ-1
marks (cx, cz+1)); a fully-interior write leaves every chunk other than
the written one exactly as it was. -/
theorem boundary_dirtying (w : World) (wx wy wz : ℤ) (b : ℕ) :
    ∀ res ∈ [w.remove_block wx wy wz, w.place_block wx wy wz b],
      res.1 = true →
      ((wx - wx / CHUNK_SIZE_X * CHUNK_SIZE_X = 0 →
          ∀ nb, w.chunks (wx / CHUNK_SIZE_X - 1, wz / CHUNK_SIZE_Z) = some nb →
            res.2.chunks (wx / CHUNK_SIZE_X - 1, wz / CHUNK_SIZE_Z) =
              some { nb with dirty := true }) ∧
       (wx - wx / CHUNK_SIZE_X * CHUNK_SIZE_X = CHUNK_SIZE_X - 1 →
          ∀ nb, w.chunks (wx / CHUNK_SIZE_X + 1, wz / CHUNK_SIZE_Z) = some nb →
            res.2.chunks (wx / CHUNK_SIZE_X + 1, wz / CHUNK_SIZE_Z) =
              some { nb with dirty := true }) ∧
       (wz - wz / CHUNK_SIZE_Z * CHUNK_SIZE_Z = 0 →
          ∀ nb, w.chunks (wx / CHUNK_SIZE_X, wz / CHUNK_SIZE_Z - 1) = some nb →
            res.2.chunks (wx / CHUNK_SIZE_X, wz / CHUNK_SIZE_Z - 1) =
              some { nb with dirty := true }) ∧
       (wz - wz / CHUNK_SIZE_Z * CHUNK_SIZE_Z = CHUNK_SIZE_Z - 1 →
          ∀ nb, w.chunks (wx / CHUNK_SIZE_X, wz / CHUNK_SIZE_Z + 1) = some nb →
            res.2.chunks (wx / CHUNK_SIZE_X, wz / CHUNK_SIZE_Z + 1) =
              some { nb with dirty := true }) ∧
       (0 < wx - wx / CHUNK_SIZE_X * CHUNK_SIZE_X →
        wx - wx / CHUNK_SIZE_X * CHUNK_SIZE_X < CHUNK_SIZE_X - 1 →
        0 < wz - wz / CHUNK_SIZE_Z * CHUNK_SIZE_Z →
        wz - wz / CHUNK_SIZE_Z * CHUNK_SIZE_Z < CHUNK_SIZE_Z - 1 →
          ∀ k, k ≠ (wx / CHUNK_SIZE_X, wz / CHUNK_SIZE_Z) →
            res.2.chunks k = w.chunks k)) := by
  intro res hres hok
  obtain ⟨w1, hshape, hpres⟩ := write_success_shape w wx wy wz b res hres hok
  rw [hshape]
  refine ⟨fun hlx nb hnb => ?_, fun hlx nb hnb => ?_, fun hlz nb hnb => ?_,
    fun hlz nb hnb => ?_, fun h1 h2 h3 h4 k hk => ?_⟩
  · refine mark_neighbors_left w1 wx wz _ _ hlx nb ?_
    rw [hpres _ (by intro h; rw [Prod.mk.injEq] at h; omega)]
    exact hnb
  · refine mark_neighbors_right w1 wx wz _ _ hlx nb ?_
    rw [hpres _ (by intro h; rw [Prod.mk.injEq] at h; omega)]
    exact hnb
  · refine mark_neighbors_front w1 wx wz _ _ hlz nb ?_
    rw [hpres _ (by intro h; rw [Prod.mk.injEq] at h; omega)]
    exact hnb
  · refine mark_neighbors_back w1 wx wz _ _ hlz nb ?_
    rw [hpres _ (by intro h; rw [Prod.mk.injEq] at h; omega)]
    exact hnb
  · rw [mark_neighbors_interior w1 wx wz _ _ h1.ne' h2.ne h3.ne' h4.ne]
    exact hpres k hk

/-- Witness for C3: removing the stone block at world (8, 5, 1) — local
x = 0 of chunk (1, 0) — succeeds and marks the loaded neighbor chunk
(0, 0) dirty. -/
theorem boundary_dirtying_witness :
    (worldTwoChunks.remove_block 8 5 1).1 = true ∧
    ((8 : ℤ) - 8 / CHUNK_SIZE_X * CHUNK_SIZE_X = 0) ∧
    worldTwoChunks.chunks (8 / CHUNK_SIZE_X - 1, 1 / CHUNK_SIZE_Z) = some chunkAir ∧
    (worldTwoChunks.remove_block 8 5 1).2.chunks (8 / CHUNK_SIZE_X - 1, 1 / CHUNK_SIZE_Z) =
      some { chunkAir with dirty := true } := by
  refine ⟨by decide, by decide, rfl, ?_⟩
  exact (boundary_dirtying worldTwoChunks 8 5 1 BLOCK_DIRT
    (worldTwoChunks.remove_block 8 5 1) (by simp) (by decide)).1 (by decide) chunkAir rfl


/-! ### C1: sweep non-penetration -/

theorem mem_intRange {a b x : ℤ} : x ∈ intRange a b ↔ a ≤ x ∧ x < b := by
  unfold intRange
  rw [List.mem_map]
  constructor
  · rintro ⟨i, hi, rfl⟩
    rw [List.mem_range] at hi
    omega
  · rintro ⟨h1, h2⟩
    exact ⟨(x - a).toNat, List.mem_range.mpr (by omega), by omega⟩

theorem mem_sweepCands {smx sMx smy sMy smz sMz bx bY bz : ℤ}
    (h1 : smx ≤ bx) (h2 : bx ≤ sMx) (h3 : smy ≤ bY) (h4 : bY ≤ sMy)
    (h5 : smz ≤ bz) (h6 : bz ≤ sMz) :
    (bx, bY, bz) ∈ sweepCands smx sMx smy sMy smz sMz := by
  simp only [sweepCands, List.mem_flatMap, List.mem_map]
  exact ⟨bx, mem_intRange.mpr ⟨h1, by omega⟩, bY, mem_intRange.mpr ⟨h3, by omega⟩,
    bz, mem_intRange.mpr ⟨h5, by omega⟩, rfl⟩

theorem foldl_fst_le_init {β : Type} (g : (ℚ × Bool) → β → (ℚ × Bool))
    (hg : ∀ s c, (g s c).1 ≤ s.1) (l : List β) (s : ℚ × Bool) :
    (l.foldl g s).1 ≤ s.1 := by
  induction l generalizing s with
  | nil => exact le_refl _
  | cons c t ih => exact (ih (g s c)).trans (hg s c)

theorem foldl_fst_le_of_mem {β : Type} (g : (ℚ × Bool) → β → (ℚ × Bool))
    (hg : ∀ s c, (g s c).1 ≤ s.1) (c : β) (v : ℚ) (hc : ∀ s, (g s c).1 ≤ v)
    (l : List β) : ∀ s : ℚ × Bool, c ∈ l → (l.foldl g s).1 ≤ v := by
  induction l with
  | nil => intro s h; cases h
  | cons d t ih =>
    intro s h
    rcases List.mem_cons.mp h with rfl | h2
    · exact (foldl_fst_le_init g hg t (g s c)).trans (hc s)
    · exact ih (g s d) h2

theorem foldl_fst_ge_init {β : Type} (g : (ℚ × Bool) → β → (ℚ × Bool))
    (hg : ∀ s c, s.1 ≤ (g s c).1) (l : List β) (s : ℚ × Bool) :
    s.1 ≤ (l.foldl g s).1 := by
  induction l generalizing s with
  | nil => exact le_refl _
  | cons c t ih => exact (hg s c).trans (ih (g s c))

theorem foldl_fst_ge_of_mem {β : Type} (g : (ℚ × Bool) → β → (ℚ × Bool))
    (hg : ∀ s c, s.1 ≤ (g s c).1) (c : β) (v : ℚ) (hc : ∀ s, v ≤ (g s c).1)
    (l : List β) : ∀ s : ℚ × Bool, c ∈ l → v ≤ (l.foldl g s).1 := by
  induction l with
  | nil => intro s h; cases h
  | cons d t ih =>
    intro s h
    rcases List.mem_cons.mp h with rfl | h2
    · exact (hc s).trans (foldl_fst_ge_init g hg t (g s c))
    · exact ih (g s d) h2

theorem intersects_eq_false (a b : AABB)
    (h : a.max_x ≤ b.min_x ∨ a.min_x ≥ b.max_x ∨ a.max_y ≤ b.min_y ∨
         a.min_y ≥ b.max_y ∨ a.max_z ≤ b.min_z ∨ a.min_z ≥ b.max_z) :
    a.intersects b = false := by
  simp only [AABB.intersects, Bool.not_eq_false', Bool.or_eq_true, decide_eq_true_eq]
  tauto

/-- **C1**.  For every AABB, signed single-axis displacement, and
solid-block configuration: if block `(bx, bY, bz)` blocked the sweep,
then the AABB moved along that axis by the returned `allowed_delta` does
not intersect that block's unit cube. -/
theorem sweep_non_penetration (solid : ℤ → ℤ → ℤ → Bool) (aabb : AABB) (delta : ℚ)
    (axis : Axis) (bx bY bz : ℤ) (hb : blocksSweep solid aabb delta axis bx bY bz) :
    (aabb.movedAxis (sweep_axis solid aabb delta axis).1 axis).intersects
      (block_aabb bx bY bz) = false := by
  have heps : (0 : ℚ) < EPSILON := by norm_num [EPSILON]
  simp only [blocksSweep, block_aabb] at hb
  cases axis with
  | x =>
    obtain ⟨hsolid, hr1, hr2, hr3, hr4, hr5, hr6, hovy, hovz, hcross⟩ := hb
    rcases lt_trichotomy 0 delta with hδ | hδ | hδ
    · rw [if_pos hδ] at hcross hr1 hr2
      have hne : delta ≠ 0 := ne_of_gt hδ
      have hdec : ∀ s c, (sweepStepX solid aabb delta s c).1 ≤ s.1 := by
        intro s c
        simp only [sweepStepX]
        split_ifs <;>
          first
            | exact le_refl _
            | exact min_le_left _ _
            | exact absurd hδ (by assumption)
      have hclamp : ∀ s, (sweepStepX solid aabb delta s (bx, bY, bz)).1 ≤
          (bx : ℚ) - aabb.max_x - EPSILON := by
        intro s
        simp only [sweepStepX, block_aabb]
        rw [if_pos hsolid, if_neg (by simpa [block_aabb] using hovy),
          if_neg (by simpa [block_aabb] using hovz), if_pos hδ,
          if_pos (by simpa [block_aabb] using hcross)]
        exact min_le_right _ _
      have hle : (sweep_axis solid aabb delta .x).1 ≤ (bx : ℚ) - aabb.max_x - EPSILON := by
        unfold sweep_axis
        rw [if_neg hne]
        simp only [if_pos hδ]
        exact foldl_fst_le_of_mem _ hdec _ _ hclamp _ _
          (mem_sweepCands hr1 hr2 hr3 hr4 hr5 hr6)
      refine intersects_eq_false _ _ (Or.inl ?_)
      show aabb.max_x + (sweep_axis solid aabb delta .x).1 ≤ (bx : ℚ)
      linarith
    · exfalso
      rw [← hδ] at hcross
      rw [if_neg (lt_irrefl 0)] at hcross
      obtain ⟨hc1, hc2⟩ := hcross
      linarith
    · rw [if_neg (not_lt.mpr hδ.le)] at hcross hr1 hr2
      have hne : delta ≠ 0 := ne_of_lt hδ
      have hinc : ∀ s c, s.1 ≤ (sweepStepX solid aabb delta s c).1 := by
        intro s c
        simp only [sweepStepX]
        split_ifs <;>
          first
            | exact le_refl _
            | exact le_max_left _ _
            | exact absurd (by assumption : (0 : ℚ) < delta) (not_lt.mpr hδ.le)
      have hclamp : ∀ s, (bx : ℚ) + 1 - aabb.min_x + EPSILON ≤
          (sweepStepX solid aabb delta s (bx, bY, bz)).1 := by
        intro s
        simp only [sweepStepX, block_aabb]
        rw [if_pos hsolid, if_neg (by simpa [block_aabb] using hovy),
          if_neg (by simpa [block_aabb] using hovz), if_neg (not_lt.mpr hδ.le),
          if_pos (by simpa [block_aabb] using hcross)]
        exact le_trans (le_of_eq (by ring)) (le_max_right _ _)
      have hge : (bx : ℚ) + 1 - aabb.min_x + EPSILON ≤ (sweep_axis solid aabb delta .x).1 := by
        unfold sweep_axis
        rw [if_neg hne]
        simp only [if_neg (not_lt.mpr hδ.le)]
        exact foldl_fst_ge_of_mem _ hinc _ _ hclamp _ _
          (mem_sweepCands hr1 hr2 hr3 hr4 hr5 hr6)
      refine intersects_eq_false _ _ (Or.inr (Or.inl ?_))
      show aabb.min_x + (sweep_axis solid aabb delta .x).1 ≥ (bx : ℚ) + 1
      linarith
  | y =>
    obtain ⟨hsolid, hr1, hr2, hr3, hr4, hr5, hr6, hovx, hovz, hcross⟩ := hb
    rcases lt_trichotomy 0 delta with hδ | hδ | hδ
    · rw [if_pos hδ] at hcross hr3 hr4
      have hne : delta ≠ 0 := ne_of_gt hδ
      have hdec : ∀ s c, (sweepStepY solid aabb delta s c).1 ≤ s.1 := by
        intro s c
        simp only [sweepStepY]
        split_ifs <;>
          first
            | exact le_refl _
            | exact min_le_left _ _
            | exact absurd hδ (by assumption)
      have hclamp : ∀ s, (sweepStepY solid aabb delta s (bx, bY, bz)).1 ≤
          (bY : ℚ) - aabb.max_y - EPSILON := by
        intro s
        simp only [sweepStepY, block_aabb]
        rw [if_pos hsolid, if_neg (by simpa [block_aabb] using hovx),
          if_neg (by simpa [block_aabb] using hovz), if_pos hδ,
          if_pos (by simpa [block_aabb] using hcross)]
        exact min_le_right _ _
      have hle : (sweep_axis solid aabb delta .y).1 ≤ (bY : ℚ) - aabb.max_y - EPSILON := by
        unfold sweep_axis
        rw [if_neg hne]
        simp only [if_pos hδ]
        exact foldl_fst_le_of_mem _ hdec _ _ hclamp _ _
          (mem_sweepCands hr1 hr2 hr3 hr4 hr5 hr6)
      refine intersects_eq_false _ _ (Or.inr (Or.inr (Or.inl ?_)))
      show aabb.max_y + (sweep_axis solid aabb delta .y).1 ≤ (bY : ℚ)
      linarith
    · exfalso
      rw [← hδ] at hcross
      rw [if_neg (lt_irrefl 0)] at hcross
      obtain ⟨hc1, hc2⟩ := hcross
      linarith
    · rw [if_neg (not_lt.mpr hδ.le)] at hcross hr3 hr4
      have hne : delta ≠ 0 := ne_of_lt hδ
      have hinc : ∀ s c, s.1 ≤ (sweepStepY solid aabb delta s c).1 := by
        intro s c
        simp only [sweepStepY]
        split_ifs <;>
          first
            | exact le_refl _
            | exact le_max_left _ _
            | exact absurd (by assumption : (0 : ℚ) < delta) (not_lt.mpr hδ.le)
      have hclamp : ∀ s, (bY : ℚ) + 1 - aabb.min_y + EPSILON ≤
          (sweepStepY solid aabb delta s (bx, bY, bz)).1 := by
        intro s
        simp only [sweepStepY, block_aabb]
        rw [if_pos hsolid, if_neg (by simpa [block_aabb] using hovx),
          if_neg (by simpa [block_aabb] using hovz), if_neg (not_lt.mpr hδ.le),
          if_pos (by simpa [block_aabb] using hcross)]
        exact le_trans (le_of_eq (by ring)) (le_max_right _ _)
      have hge : (bY : ℚ) + 1 - aabb.min_y + EPSILON ≤ (sweep_axis solid aabb delta .y).1 := by
        unfold sweep_axis
        rw [if_neg hne]
        simp only [if_neg (not_lt.mpr hδ.le)]
        exact foldl_fst_ge_of_mem _ hinc _ _ hclamp _ _
          (mem_sweepCands hr1 hr2 hr3 hr4 hr5 hr6)
      refine intersects_eq_false _ _ (Or.inr (Or.inr (Or.inr (Or.inl ?_))))
      show aabb.min_y + (sweep_axis solid aabb delta .y).1 ≥ (bY : ℚ) + 1
      linarith
  | z =>
    obtain ⟨hsolid, hr1, hr2, hr3, hr4, hr5, hr6, hovx, hovy, hcross⟩ := hb
    rcases lt_trichotomy 0 delta with hδ | hδ | hδ
    · rw [if_pos hδ] at hcross hr5 hr6
      have hne : delta ≠ 0 := ne_of_gt hδ
      have hdec : ∀ s c, (sweepStepZ solid aabb delta s c).1 ≤ s.1 := by
        intro s c
        simp only [sweepStepZ]
        split_ifs <;>
          first
            | exact le_refl _
            | exact min_le_left _ _
            | exact absurd hδ (by assumption)
      have hclamp : ∀ s, (sweepStepZ solid aabb delta s (bx, bY, bz)).1 ≤
          (bz : ℚ) - aabb.max_z - EPSILON := by
        intro s
        simp only [sweepStepZ, block_aabb]
        rw [if_pos hsolid, if_neg (by simpa [block_aabb] using hovx),
          if_neg (by simpa [block_aabb] using hovy), if_pos hδ,
          if_pos (by simpa [block_aabb] using hcross)]
        exact min_le_right _ _
      have hle : (sweep_axis solid aabb delta .z).1 ≤ (bz : ℚ) - aabb.max_z - EPSILON := by
        unfold sweep_axis
        rw [if_neg hne]
        simp only [if_pos hδ]
        exact foldl_fst_le_of_mem _ hdec _ _ hclamp _ _
          (mem_sweepCands hr1 hr2 hr3 hr4 hr5 hr6)
      refine intersects_eq_false _ _ (Or.inr (Or.inr (Or.inr (Or.inr (Or.inl ?_)))))
      show aabb.max_z + (sweep_axis solid aabb delta .z).1 ≤ (bz : ℚ)
      linarith
    · exfalso
      rw [← hδ] at hcross
      rw [if_neg (lt_irrefl 0)] at hcross
      obtain ⟨hc1, hc2⟩ := hcross
      linarith
    · rw [if_neg (not_lt.mpr hδ.le)] at hcross hr5 hr6
      have hne : delta ≠ 0 := ne_of_lt hδ
      have hinc : ∀ s c, s.1 ≤ (sweepStepZ solid aabb delta s c).1 := by
        intro s c
        simp only [sweepStepZ]
        split_ifs <;>
          first
            | exact le_refl _
            | exact le_max_left _ _
            | exact absurd (by assumption : (0 : ℚ) < delta) (not_lt.mpr hδ.le)
      have hclamp : ∀ s, (bz : ℚ) + 1 - aabb.min_z + EPSILON ≤
          (sweepStepZ solid aabb delta s (bx, bY, bz)).1 := by
        intro s
        simp only [sweepStepZ, block_aabb]
        rw [if_pos hsolid, if_neg (by simpa [block_aabb] using hovx),
          if_neg (by simpa [block_aabb] using hovy), if_neg (not_lt.mpr hδ.le),
          if_pos (by simpa [block_aabb] using hcross)]
        exact le_trans (le_of_eq (by ring)) (le_max_right _ _)
      have hge : (bz : ℚ) + 1 - aabb.min_z + EPSILON ≤ (sweep_axis solid aabb delta .z).1 := by
        unfold sweep_axis
        rw [if_neg hne]
        simp only [if_neg (not_lt.mpr hδ.le)]
        exact foldl_fst_ge_of_mem _ hinc _ _ hclamp _ _
          (mem_sweepCands hr1 hr2 hr3 hr4 hr5 hr6)
      refine intersects_eq_false _ _ (Or.inr (Or.inr (Or.inr (Or.inr (Or.inr ?_)))))
      show aabb.min_z + (sweep_axis solid aabb delta .z).1 ≥ (bz : ℚ) + 1
      linarith


/-- Witness for C1: a unit box pushed right by 3 against a solid block
at x = 2 stops short of the block. -/
theorem sweep_non_penetration_witness :
    blocksSweep (fun p q r => decide (p = 2 ∧ q = 0 ∧ r = 0))
      ⟨0, 0, 0, 1, 1, 1⟩ 3 .x 2 0 0 ∧
    ((⟨0, 0, 0, 1, 1, 1⟩ : AABB).movedAxis
        (sweep_axis (fun p q r => decide (p = 2 ∧ q = 0 ∧ r = 0))
          ⟨0, 0, 0, 1, 1, 1⟩ 3 .x).1 .x).intersects (block_aabb 2 0 0) = false := by
  have hb : blocksSweep (fun p q r => decide (p = 2 ∧ q = 0 ∧ r = 0))
      ⟨0, 0, 0, 1, 1, 1⟩ 3 .x 2 0 0 := by
    simp only [blocksSweep, block_aabb]
    norm_num
  exact ⟨hb, sweep_non_penetration _ _ _ _ _ _ _ hb⟩


/-! ### C6: determinism of terrain queries -/

/-- The module state after running a call sequence. -/
theorem noiseRun_append (initPerm : ℤ → List ℕ) :
    ∀ (l1 l2 : List NoiseCall) (st : List ℕ),
      noiseRun initPerm st (l1 ++ l2) =
        noiseRun initPerm st l1 ++
          noiseRun initPerm (l1.foldl (fun s c => (noiseStep initPerm s c).1) st) l2 := by
  intro l1
  induction l1 with
  | nil => intro l2 st; rfl
  | cons c t ih =>
    intro l2 st
    simp only [List.cons_append, noiseRun, List.foldl_cons, List.append_eq]
    rw [ih]

/-- A sequence of read-only queries leaves the state alone and answers
purely from the table. -/
theorem noiseRun_queries (initPerm : ℤ → List ℕ) :
    ∀ (cs : List NoiseCall) (p : List ℕ),
      (∀ c ∈ cs, isSetSeed c = false) →
      noiseRun initPerm p cs = cs.map (pureReply p) := by
  intro cs
  induction cs with
  | nil => intro p _; rfl
  | cons c t ih =>
    intro p hno
    have hc : isSetSeed c = false := hno c (List.mem_cons_self c t)
    have ht : ∀ d ∈ t, isSetSeed d = false := fun d hd => hno d (List.mem_cons_of_mem c hd)
    cases c with
    | setSeed seed => simp [isSetSeed] at hc
    | queryHeight wx wz =>
      simp only [noiseRun, noiseStep, List.map_cons, pureReply]
      rw [ih p ht]
    | queryBiome wx wz =>
      simp only [noiseRun, noiseStep, List.map_cons, pureReply]
      rw [ih p ht]

/-- **C6**.  For a fixed seed, `terrain_height` and `get_biome` are
deterministic: in any call trace, once `set_world_seed seed` has run,
every later query — whatever calls preceded it, in whatever order —
answers the pure function of `(seed, coordinates)`; consequently two
runs (also across process restarts) that set the same seed return
identical results for identical query arguments. -/
theorem terrain_determinism (initPerm : ℤ → List ℕ) (seed : ℤ)
    (pre post : List NoiseCall) (st0 : List ℕ)
    (hpost : ∀ c ∈ post, isSetSeed c = false) :
    noiseRun initPerm st0 (pre ++ NoiseCall.setSeed seed :: post) =
      noiseRun initPerm st0 pre ++
        NoiseReply.ok :: post.map (pureReply (initPerm seed)) := by
  rw [noiseRun_append]
  simp only [noiseRun, noiseStep]
  rw [noiseRun_queries initPerm post (initPerm seed) hpost]

/-- Witness for C6 at a concrete trace: seed 1337 then the same
column-height query twice answers the same value both times. -/
theorem terrain_determinism_witness :
    (∀ c ∈ [NoiseCall.queryHeight 0 0, NoiseCall.queryHeight 0 0,
      NoiseCall.queryBiome 3 4], isSetSeed c = false) ∧
    noiseRun (fun _ => List.range 256 ++ List.range 256) []
        ([] ++ NoiseCall.setSeed 1337 ::
          [NoiseCall.queryHeight 0 0, NoiseCall.queryHeight 0 0,
           NoiseCall.queryBiome 3 4]) =
      noiseRun (fun _ => List.range 256 ++ List.range 256) [] [] ++
        NoiseReply.ok ::
          [NoiseCall.queryHeight 0 0, NoiseCall.queryHeight 0 0,
           NoiseCall.queryBiome 3 4].map
            (pureReply ((fun _ => List.range 256 ++ List.range 256) (1337 : ℤ))) := by
  refine ⟨by decide, ?_⟩
  exact terrain_determinism (fun _ => List.range 256 ++ List.range 256) 1337 [] _ [] (by decide)

/-! ### C10: get_block falls back to terrain, is_solid does not -/

/-- **C10**.  On an in-range coordinate whose chunk is not loaded,
`get_block` returns the terrain-generated `block_id_at` while `is_solid`
returns false; and the two queries disagree (solidity of the returned
block differs from `is_solid`) exactly on in-range unloaded coordinates
whose generated block is solid. -/
theorem unloaded_get_block_vs_is_solid (w : World) (p : List ℕ) (wx wy wz : ℤ) :
    (0 ≤ wy → wy < CHUNK_SIZE_Y →
      w.chunks (wx / CHUNK_SIZE_X, wz / CHUNK_SIZE_Z) = none →
      w.get_block p wx wy wz = block_id_at p wx wy wz ∧
        w.is_solid wx wy wz = false) ∧
    (w.is_solid wx wy wz ≠ is_block_solid (w.get_block p wx wy wz) ↔
      0 ≤ wy ∧ wy < CHUNK_SIZE_Y ∧
        w.chunks (wx / CHUNK_SIZE_X, wz / CHUNK_SIZE_Z) = none ∧
        is_block_solid (block_id_at p wx wy wz) = true) := by
  constructor
  · intro h0 h1 hc
    have hn : ¬ wy < 0 := by omega
    have hn2 : ¬ CHUNK_SIZE_Y ≤ wy := by omega
    exact ⟨by simp [World.get_block, hn, hn2, hc], by simp [World.is_solid, hn, hn2, hc]⟩
  · by_cases hlt : wy < 0
    · have h1 : ¬ CHUNK_SIZE_Y ≤ wy := by unfold CHUNK_SIZE_Y at *; omega
      simp [World.is_solid, World.get_block, hlt, is_block_solid, BLOCK_BEDROCK, BLOCK_AIR]
    · by_cases hge : CHUNK_SIZE_Y ≤ wy
      · simp [World.is_solid, World.get_block, hlt, hge, is_block_solid, BLOCK_AIR]
      · rcases hc : w.chunks (wx / CHUNK_SIZE_X, wz / CHUNK_SIZE_Z) with _ | chunk
        · constructor
          · intro hdiff
            refine ⟨by omega, by omega, rfl, ?_⟩
            simp only [World.is_solid, World.get_block, if_neg hlt, if_neg hge, hc] at hdiff
            cases hb : is_block_solid (block_id_at p wx wy wz) with
            | true => rfl
            | false => exact absurd (hb ▸ rfl) hdiff
          · rintro ⟨h0, h1, _, hsolidgen⟩
            simp only [World.is_solid, World.get_block, if_neg hlt, if_neg hge, hc, hsolidgen]
            exact fun h => Bool.false_ne_true h
        · simp [World.is_solid, World.get_block, hlt, hge, hc]

/-- Witness for C10 at a concrete unloaded world. -/
theorem unloaded_get_block_vs_is_solid_witness :
    ((0 : ℤ) ≤ 0 ∧ (0 : ℤ) < CHUNK_SIZE_Y ∧
      (World.mk (fun _ => none) (fun cx cz => Chunk.init cx cz)).chunks
        (0 / CHUNK_SIZE_X, 0 / CHUNK_SIZE_Z) = none) ∧
    (World.mk (fun _ => none) (fun cx cz => Chunk.init cx cz)).get_block [] 0 0 0 =
        block_id_at [] 0 0 0 ∧
    (World.mk (fun _ => none) (fun cx cz => Chunk.init cx cz)).is_solid 0 0 0 = false := by
  refine ⟨⟨le_refl 0, by norm_num [CHUNK_SIZE_Y], rfl⟩, ?_⟩
  exact (unloaded_get_block_vs_is_solid
    (World.mk (fun _ => none) (fun cx cz => Chunk.init cx cz)) [] 0 0 0).1
    (le_refl 0) (by norm_num [CHUNK_SIZE_Y]) rfl


/-! ### C8: cave carving bounds -/

/-- **C8**.  Every coordinate the cave generator returns for chunk
`(cx, cz)` — for any worm paths whatsoever — is a chunk-local coordinate
of that chunk with 1 ≤ y ≤ SY-2: carving never touches the bedrock row
or the very top row, and never reaches outside the target chunk. -/
theorem cave_carve_bounds (cx cz : ℤ) (spheres : List (ℚ × ℚ × ℚ × ℚ))
    (lx y lz : ℤ) (hmem : (lx, y, lz) ∈ generate_chunk_caves cx cz spheres) :
    0 ≤ lx ∧ lx < CHUNK_SIZE_X ∧ 0 ≤ lz ∧ lz < CHUNK_SIZE_Z ∧
      1 ≤ y ∧ y ≤ CHUNK_SIZE_Y - 2 := by
  simp only [generate_chunk_caves, List.mem_flatMap] at hmem
  obtain ⟨sp, _, hmem⟩ := hmem
  simp only [carveSphere] at hmem
  split at hmem
  · simp only [List.mem_flatMap, List.mem_filterMap] at hmem
    obtain ⟨bx, hbx, bz, hbz, bY, hbY, hf⟩ := hmem
    rw [mem_intRange] at hbx hbz hbY
    split at hf
    · rw [Option.some_inj, Prod.mk.injEq, Prod.mk.injEq] at hf
      obtain ⟨h1, h2, h3⟩ := hf
      subst h1
      subst h2
      subst h3
      unfold CHUNK_SIZE_X CHUNK_SIZE_Y CHUNK_SIZE_Z at *
      omega
    · cases hf
  · cases hmem

/-- Witness for C8: a worm sphere of radius 2 centred at (4, 20, 4) in
chunk (0, 0) carves the local coordinate (4, 20, 4), which is in
bounds. -/
theorem cave_carve_bounds_witness :
    ((4 : ℤ), (20 : ℤ), (4 : ℤ)) ∈
        generate_chunk_caves 0 0 [(4, 20, 4, 2)] ∧
    (0 ≤ (4 : ℤ) ∧ (4 : ℤ) < CHUNK_SIZE_X ∧ 0 ≤ (4 : ℤ) ∧ (4 : ℤ) < CHUNK_SIZE_Z ∧
      1 ≤ (20 : ℤ) ∧ (20 : ℤ) ≤ CHUNK_SIZE_Y - 2) := by
  have hmem : ((4 : ℤ), (20 : ℤ), (4 : ℤ)) ∈
      generate_chunk_caves 0 0 [(4, 20, 4, 2)] := by
    simp only [generate_chunk_caves, List.mem_flatMap]
    refine ⟨(4, 20, 4, 2), List.mem_singleton.mpr rfl, ?_⟩
    simp only [carveSphere]
    rw [if_pos (by norm_num [pyInt, CHUNK_SIZE_X, CHUNK_SIZE_Z])]
    simp only [List.mem_flatMap, List.mem_filterMap]
    refine ⟨4, mem_intRange.mpr (by norm_num [pyInt, CHUNK_SIZE_X]), 4,
      mem_intRange.mpr (by norm_num [pyInt, CHUNK_SIZE_Z]), 20,
      mem_intRange.mpr (by norm_num [pyInt, CHUNK_SIZE_Y]), ?_⟩
    rw [if_pos (by norm_num)]
    norm_num
  exact ⟨hmem, cave_carve_bounds 0 0 [(4, 20, 4, 2)] 4 20 4 hmem⟩


/-! ### C5: mesh face count -/

/-- Counterexample to C5 as stated: the solid block at (0, 0, 0) — so at
y = 0 — has exactly one non-solid neighbor (the one above), yet
`build_mesh` emits 2 quads for it (top, plus the unconditional y = 0
bottom quad), not 1. -/
theorem mesh_face_count_counterexample :
    is_block_solid BLOCK_STONE = true ∧
    nonSolidNeighborCount solidExceptTop 0 0 0 = 1 ∧
    (blockFaces solidExceptTop BLOCK_STONE 0 0 0).length = 2 := by
  decide

/-- **C5** (amended).  A solid block all six of whose neighbors are
solid contributes zero quads (any y); a solid block at y ≥ 1 with
exactly one non-solid neighbor contributes exactly one quad (one
`add_quad` call: 4 vertices, 2 triangles).  At y = 0 the source
special-cases the below-world side (the early-out counts it as occluded
while the emission branch always emits a bottom quad), so the one-quad
property is restricted to y ≥ 1. -/
theorem mesh_face_count (is_world_solid : ℤ → ℤ → ℤ → Bool) (block_id : ℕ)
    (wx y wz : ℤ) (hsolid : is_block_solid block_id = true) :
    (nonSolidNeighborCount is_world_solid wx y wz = 0 →
      blockFaces is_world_solid block_id wx y wz = []) ∧
    (1 ≤ y → nonSolidNeighborCount is_world_solid wx y wz = 1 →
      (blockFaces is_world_solid block_id wx y wz).length = 1) := by
  constructor
  · intro hcount
    unfold nonSolidNeighborCount at hcount
    split_ifs at hcount <;> simp_all [blockFaces]
  · intro hy hcount
    have hy0 : ¬ (y = 0) := by omega
    unfold nonSolidNeighborCount at hcount
    split_ifs at hcount <;> simp_all [blockFaces]

/-- Witness for C5 (amended): a fully-occluded block emits nothing, and
the block at (0, 2, 0) under `solidExceptTop` (its one non-solid
neighbor is the cell below, (0, 1, 0)) emits exactly one quad. -/
theorem mesh_face_count_witness :
    (is_block_solid BLOCK_STONE = true ∧
      nonSolidNeighborCount (fun _ _ _ => true) 5 7 9 = 0 ∧
      blockFaces (fun _ _ _ => true) BLOCK_STONE 5 7 9 = []) ∧
    ((1 : ℤ) ≤ 2 ∧ nonSolidNeighborCount solidExceptTop 0 2 0 = 1 ∧
      (blockFaces solidExceptTop BLOCK_STONE 0 2 0).length = 1) := by
  refine ⟨⟨by decide, by decide, ?_⟩, ⟨by decide, by decide, ?_⟩⟩
  · exact (mesh_face_count (fun _ _ _ => true) BLOCK_STONE 5 7 9 (by decide)).1 (by decide)
  · exact (mesh_face_count solidExceptTop BLOCK_STONE 0 2 0 (by decide)).2
      (by decide) (by decide)


/-! ### C9: falling player lands on the floor -/

theorem approach_self (x d : ℚ) : approach x x d = x := by
  unfold approach
  simp [lt_irrefl]

theorem sweep_axis_zero (solid : ℤ → ℤ → ℤ → Bool) (aabb : AABB) (axis : Axis) :
    sweep_axis solid aabb 0 axis = (0, false) := by
  unfold sweep_axis
  rw [if_pos rfl]

theorem foldl_fst_le_max {β : Type} (g : (ℚ × Bool) → β → (ℚ × Bool)) (K : ℚ)
    (hg : ∀ s c, (g s c).1 ≤ max s.1 K) :
    ∀ (l : List β) (s : ℚ × Bool), (l.foldl g s).1 ≤ max s.1 K := by
  intro l
  induction l with
  | nil => intro s; exact le_max_left _ _
  | cons c t ih =>
    intro s
    refine le_trans (ih (g s c)) (max_le (le_trans (hg s c) ?_) (le_max_right _ _))
    exact max_le_max_left _ (le_refl K)

/-- The y-sweep of the falling player box against the flat floor clamps
the downward delta to land exactly `EPSILON` above the y = 10 surface. -/
theorem sweep_floor_value (y0 dy : ℚ) (h10 : 10 ≤ y0) (hdy : dy < 0)
    (hc : y0 + dy < 10) :
    (sweep_axis floorWorld ⟨1/5, y0, 1/5, 4/5, y0 + 9/5, 4/5⟩ dy .y).1 =
      10 - y0 + EPSILON := by
  have hne : dy ≠ 0 := ne_of_lt hdy
  have hnp : ¬ (0 : ℚ) < dy := not_lt.mpr hdy.le
  have heps : (0 : ℚ) < EPSILON := by norm_num [EPSILON]
  have hg : ∀ s c, (sweepStepY floorWorld ⟨1/5, y0, 1/5, 4/5, y0 + 9/5, 4/5⟩ dy s c).1 ≤
      max s.1 (10 - y0 + EPSILON) := by
    intro s c
    simp only [sweepStepY, block_aabb, floorWorld]
    split_ifs with h1 h2 h3 h4
    · exact le_max_left _ _
    · exact le_max_left _ _
    · have hle9 : (c.2.1 : ℚ) ≤ 9 := by exact_mod_cast of_decide_eq_true h1
      exact max_le_max_left _ (by linarith :
        (c.2.1 : ℚ) + 1 - y0 + EPSILON ≤ 10 - y0 + EPSILON)
    · exact le_max_left _ _
    · exact le_max_left _ _
  have hinc : ∀ s c, s.1 ≤
      (sweepStepY floorWorld ⟨1/5, y0, 1/5, 4/5, y0 + 9/5, 4/5⟩ dy s c).1 := by
    intro s c
    simp only [sweepStepY, block_aabb, floorWorld]
    split_ifs with h1 h2 h3 h4
    · exact le_refl _
    · exact le_refl _
    · exact le_max_left _ _
    · exact le_refl _
    · exact le_refl _
  have hclamp : ∀ s, (10 : ℚ) - y0 + EPSILON ≤
      (sweepStepY floorWorld ⟨1/5, y0, 1/5, 4/5, y0 + 9/5, 4/5⟩ dy s ((0 : ℤ), (9 : ℤ), (0 : ℤ))).1 := by
    intro s
    simp only [sweepStepY, block_aabb]
    rw [if_pos (by norm_num [floorWorld]), if_neg (by push_cast; norm_num),
      if_neg (by push_cast; norm_num), if_neg hnp,
      if_pos (by push_cast; constructor <;> linarith)]
    refine le_trans (le_of_eq ?_) (le_max_right _ _)
    push_cast
    ring
  have hmem : ((0 : ℤ), (9 : ℤ), (0 : ℤ)) ∈
      sweepCands ⌊(1/5 : ℚ)⌋ (⌊(4/5 : ℚ)⌋ + 1) ⌊y0 + dy⌋ (⌊y0 + 9/5⌋ + 1)
        ⌊(1/5 : ℚ)⌋ (⌊(4/5 : ℚ)⌋ + 1) := by
    refine mem_sweepCands ?_ ?_ ?_ ?_ ?_ ?_ <;> try norm_num
    · have : ⌊y0 + dy⌋ < 10 := Int.floor_lt.mpr (by push_cast; linarith)
      omega
    · have : (8 : ℤ) ≤ ⌊y0 + 9/5⌋ := Int.le_floor.mpr (by push_cast; linarith)
      omega
  have hfold := foldl_fst_le_max _ (10 - y0 + EPSILON) hg
    (sweepCands ⌊(1/5 : ℚ)⌋ (⌊(4/5 : ℚ)⌋ + 1) ⌊y0 + dy⌋ (⌊y0 + 9/5⌋ + 1)
      ⌊(1/5 : ℚ)⌋ (⌊(4/5 : ℚ)⌋ + 1)) (dy, false)
  have hfold2 := foldl_fst_ge_of_mem _ hinc _ _ hclamp
    (sweepCands ⌊(1/5 : ℚ)⌋ (⌊(4/5 : ℚ)⌋ + 1) ⌊y0 + dy⌋ (⌊y0 + 9/5⌋ + 1)
      ⌊(1/5 : ℚ)⌋ (⌊(4/5 : ℚ)⌋ + 1)) (dy, false) hmem
  unfold sweep_axis
  rw [if_neg hne]
  simp only [if_neg hnp]
  refine le_antisymm (le_trans hfold ?_) hfold2
  have : max (dy, false).1 (10 - y0 + EPSILON) = 10 - y0 + EPSILON :=
    max_eq_right (by simp only []; linarith)
  rw [this]

theorem integrateX_zero (solid : ℤ → ℤ → ℤ → Bool) (ps : PlayerState) (aabb : AABB) :
    integrateX solid ps aabb 0 = (ps, aabb) := by
  simp only [integrateX, sweep_axis_zero]
  norm_num [AABB.moved]

theorem integrateZ_zero (solid : ℤ → ℤ → ℤ → Bool) (ps : PlayerState) (aabb : AABB) :
    integrateZ solid ps aabb 0 = ps := by
  simp only [integrateZ, sweep_axis_zero]
  norm_num

theorem integrateY_land (solid : ℤ → ℤ → ℤ → Bool) (ps : PlayerState) (aabb : AABB)
    (dy : ℚ) (hne : (sweep_axis solid aabb dy .y).1 ≠ dy) (hdy : dy < 0) :
    (integrateY solid ps aabb dy).1.position.y
        = ps.position.y + (sweep_axis solid aabb dy .y).1 ∧
    (integrateY solid ps aabb dy).1.on_ground = true ∧
    (integrateY solid ps aabb dy).1.velocity.y = 0 := by
  simp only [integrateY, PlayerState.take_damage]
  rw [if_pos hne, if_pos hdy]
  split_ifs <;> simp

theorem falling_player_lands (perm : List ℕ) (fns : RealFns) (now y0 vy dt : ℚ)
    (h10 : 10 ≤ y0) (hvy : vy < 0) (hdt : 0 < dt) (hdt30 : dt < 30)
    (hcross : y0 + (vy - GRAVITY * dt) * dt < 10) :
    (Player.update floorWorld perm fns now (fallingPlayer y0 vy) keysNone dt none).position.y
        = 10 + EPSILON ∧
    (Player.update floorWorld perm fns now (fallingPlayer y0 vy) keysNone dt none).on_ground
        = true ∧
    (Player.update floorWorld perm fns now (fallingPlayer y0 vy) keysNone dt none).velocity.y
        = 0 := by
  have hA : PlayerState.update_survival perm (fallingPlayer y0 vy) dt
      = fallingPlayerFed y0 vy dt := by
    simp only [PlayerState.update_survival, fallingPlayer, fallingPlayerFed]
    norm_num
    rw [if_neg (not_le.mpr hdt30)]
    norm_num
    exact fun h => absurd h (by decide)
  have hB : updateHorizontalVelocity fns (fallingPlayerFed y0 vy dt) keysNone dt none
      = fallingPlayerFed y0 vy dt := by
    simp only [updateHorizontalVelocity, keysNone, fallingPlayer, fallingPlayerFed]
    norm_num [approach_self]
  have hC : updateJumpAndFlight now (fallingPlayerFed y0 vy dt) keysNone
      = fallingPlayerFed y0 vy dt := by
    simp only [updateJumpAndFlight, keysNone, fallingPlayer, fallingPlayerFed]
    norm_num
  have hD : applyGravity (fallingPlayerFed y0 vy dt) dt = fallingPlayerStepped y0 vy dt := by
    simp only [applyGravity, fallingPlayer, fallingPlayerFed, fallingPlayerStepped]
    norm_num
  have hdx : (fallingPlayerStepped y0 vy dt).velocity.x * dt = 0 := by
    show (0 : ℚ) * dt = 0
    exact zero_mul dt
  have hdz : (fallingPlayerStepped y0 vy dt).velocity.z * dt = 0 := by
    show (0 : ℚ) * dt = 0
    exact zero_mul dt
  have hdyv : (fallingPlayerStepped y0 vy dt).velocity.y * dt
      = (vy - GRAVITY * dt) * dt := rfl
  have haabb : (fallingPlayerStepped y0 vy dt).player_aabb
      = (⟨1/5, y0, 1/5, 4/5, y0 + 9/5, 4/5⟩ : AABB) := by
    simp only [PlayerState.player_aabb, fallingPlayerStepped, fallingPlayerFed, fallingPlayer]
    norm_num [PLAYER_WIDTH, PLAYER_DEPTH, PLAYER_HEIGHT]
  have hdy : (vy - GRAVITY * dt) * dt < 0 := by
    have hG : (0 : ℚ) < GRAVITY := by norm_num [GRAVITY]
    have : (0 : ℚ) < GRAVITY * dt := mul_pos hG hdt
    exact mul_neg_of_neg_of_pos (by linarith) hdt
  have hsw := sweep_floor_value y0 ((vy - GRAVITY * dt) * dt) h10 hdy hcross
  have heps : (0 : ℚ) < EPSILON := by norm_num [EPSILON]
  have hne : (sweep_axis floorWorld (⟨1/5, y0, 1/5, 4/5, y0 + 9/5, 4/5⟩ : AABB)
      ((vy - GRAVITY * dt) * dt) .y).1 ≠ (vy - GRAVITY * dt) * dt := by
    rw [hsw]
    exact ne_of_gt (by linarith)
  simp only [Player.update]
  rw [hA, hB, hC, hD, hdx, hdyv, hdz, haabb]
  rw [integrateX_zero]
  dsimp only
  rw [integrateZ_zero]
  obtain ⟨e1, e2, e3⟩ := integrateY_land floorWorld (fallingPlayerStepped y0 vy dt)
    ⟨1/5, y0, 1/5, 4/5, y0 + 9/5, 4/5⟩ ((vy - GRAVITY * dt) * dt) hne hdy
  refine ⟨?_, e2, e3⟩
  rw [e1, hsw]
  show y0 + (10 - y0 + EPSILON) = 10 + EPSILON
  ring

/-- C9 counterexample: a player box falling straight down from feet
height 11 with one large time step does NOT end with its AABB min_y
equal to 10: the sweep clamps the descent `EPSILON` short of the
surface, so the box lands at 10.001, not 10. -/
theorem falling_player_min_y_counterexample :
    ((Player.update floorWorld [] ⟨id, id, id, id⟩ 0 (fallingPlayer 11 (-1/2)) keysNone 1
        none).player_aabb).min_y ≠ 10 := by
  have h := falling_player_lands [] ⟨id, id, id, id⟩ 0 11 (-1/2) 1
    (by norm_num) (by norm_num) (by norm_num) (by norm_num) (by norm_num [GRAVITY])
  have hmin : ((Player.update floorWorld [] ⟨id, id, id, id⟩ 0 (fallingPlayer 11 (-1/2))
      keysNone 1 none).player_aabb).min_y
      = (Player.update floorWorld [] ⟨id, id, id, id⟩ 0 (fallingPlayer 11 (-1/2))
        keysNone 1 none).position.y := rfl
  rw [hmin, h.1]
  norm_num [EPSILON]

/-- C9 (amended): a player AABB falling straight down (velocity.y < 0,
no movement intent) toward the solid floor whose top surface is at
y = 10, after one physics update whose time step is large enough that
the unclamped motion would cross the surface, ends with its AABB min_y
equal to 10 + EPSILON = 10.001 — `EPSILON` above the surface, and in
particular not below 10 — with on_ground set to true and velocity.y
reset to 0. -/
theorem falling_player_update (perm : List ℕ) (fns : RealFns) (now y0 vy dt : ℚ)
    (h10 : 10 ≤ y0) (hvy : vy < 0) (hdt : 0 < dt) (hdt30 : dt < 30)
    (hcross : y0 + (vy - GRAVITY * dt) * dt < 10) :
    ((Player.update floorWorld perm fns now (fallingPlayer y0 vy) keysNone dt
        none).player_aabb).min_y = 10 + EPSILON ∧
    10 ≤ ((Player.update floorWorld perm fns now (fallingPlayer y0 vy) keysNone dt
        none).player_aabb).min_y ∧
    (Player.update floorWorld perm fns now (fallingPlayer y0 vy) keysNone dt
        none).on_ground = true ∧
    (Player.update floorWorld perm fns now (fallingPlayer y0 vy) keysNone dt
        none).velocity.y = 0 := by
  obtain ⟨e1, e2, e3⟩ := falling_player_lands perm fns now y0 vy dt h10 hvy hdt hdt30 hcross
  have hmin : ((Player.update floorWorld perm fns now (fallingPlayer y0 vy) keysNone dt
      none).player_aabb).min_y
      = (Player.update floorWorld perm fns now (fallingPlayer y0 vy) keysNone dt
        none).position.y := rfl
  refine ⟨by rw [hmin, e1], by rw [hmin, e1]; norm_num [EPSILON], e2, e3⟩

/-- Witness for the amended C9 theorem at the concrete fall from feet
height 11 with initial vertical speed -1/2 and time step 1. -/
theorem falling_player_update_witness :
    (10 : ℚ) ≤ 11 ∧ (-1/2 : ℚ) < 0 ∧ (0 : ℚ) < 1 ∧ (1 : ℚ) < 30 ∧
    (11 : ℚ) + (-1/2 - GRAVITY * 1) * 1 < 10 ∧
    (((Player.update floorWorld [] ⟨id, id, id, id⟩ 0 (fallingPlayer 11 (-1/2)) keysNone 1
        none).player_aabb).min_y = 10 + EPSILON ∧
      10 ≤ ((Player.update floorWorld [] ⟨id, id, id, id⟩ 0 (fallingPlayer 11 (-1/2))
        keysNone 1 none).player_aabb).min_y ∧
      (Player.update floorWorld [] ⟨id, id, id, id⟩ 0 (fallingPlayer 11 (-1/2)) keysNone 1
        none).on_ground = true ∧
      (Player.update floorWorld [] ⟨id, id, id, id⟩ 0 (fallingPlayer 11 (-1/2)) keysNone 1
        none).velocity.y = 0) :=
  ⟨by norm_num, by norm_num, by norm_num, by norm_num, by norm_num [GRAVITY],
   falling_player_update [] ⟨id, id, id, id⟩ 0 11 (-1/2) 1
     (by norm_num) (by norm_num) (by norm_num) (by norm_num) (by norm_num [GRAVITY])⟩

/-- C7: the chunk grid has length `SX*SY*SZ` at creation and block
writes preserve that length, but `_apply_saved_modifications` installs
whatever saved grid it is handed without validation: applying a
malformed save whose block list is empty leaves the loaded chunk with
grid length 0 instead of `SX*SY*SZ`, breaking the invariant (the spec
requires malformed override data to be treated as "no overrides"). -/
theorem chunk_grid_length_bug :
    (Chunk.init 0 0).blocks.length = (CHUNK_SIZE_X * CHUNK_SIZE_Y * CHUNK_SIZE_Z).toNat ∧
    (∀ (c : Chunk) (lx y lz : ℤ) (b : ℕ),
      (c.set_block_local lx y lz b).blocks.length = c.blocks.length) ∧
    (apply_saved_modifications (Chunk.init 0 0) (some [])).blocks.length = 0 ∧
    (apply_saved_modifications (Chunk.init 0 0) (some [])).blocks.length
        ≠ (CHUNK_SIZE_X * CHUNK_SIZE_Y * CHUNK_SIZE_Z).toNat := by
  refine ⟨by simp [Chunk.init], ?_, rfl, ?_⟩
  · intro c lx y lz b
    unfold Chunk.set_block_local
    split_ifs <;> simp
  · decide

end Blockforge
